import Mathlib

/-!
A verification development for the `gpsx` PlayStation pad driver.

The Go package bit-bangs the pad protocol over GPIO lines.  The embedding below keeps the
driver's data (`GPSX`) and the hardware it talks to (`Wire`) apart:

* a byte (`byte`, `uint8`) is a natural number below 256; a `time.Duration` is a natural
  number of nanoseconds;
* the fixed-size arrays `[2][2][20]byte`, `[20]byte` and `[2]uint8` are total maps from
  indices to bytes; an index that would be out of range in Go (a run-time fault) is caught
  by an explicit bounds test and makes the operation return `none`;
* a `machine.Pin` is identified by the `PinConfig` field it is stored in (`Line`); the pin
  numbers themselves are only kept for the `!= 0` tests of the source;
* every call on a pin and every `time.Sleep` is appended to `Wire.trace`, oldest first; the
  levels the data line shows at successive `Get` calls are the stream `Wire.dat`.
-/

namespace Gpsx

/-! ## Hardware -/

/-- The lines of the link, one per field of `PinConfig`. -/
inductive Line
  | DAT
  | CMD
  | CLK
  | AT1
  | AT2
  | ACK
  deriving DecidableEq, Repr

/-- The two pin modes used by `init`. -/
inductive PinMode
  | PinOutput
  | PinInput
  deriving DecidableEq, Repr

/-- What the driver does to the outside world. -/
inductive Event
  | configure (l : Line) (m : PinMode)
  | high (l : Line)
  | low (l : Line)
  | get (l : Line) (level : Bool)
  | sleep (d : Nat)
  deriving DecidableEq, Repr

/-- The outside world: the levels still to be seen on the data line, and the events so far. -/
structure Wire where
  dat : Nat → Bool
  trace : List Event

/-- Record one event. -/
def Wire.emit (w : Wire) (e : Event) : Wire :=
  { w with trace := w.trace ++ [e] }

/-- Model of `pin.Configure(machine.PinConfig{Mode: m})`. -/
def Wire.Configure (w : Wire) (l : Line) (m : PinMode) : Wire :=
  w.emit (.configure l m)

/-- Model of `pin.High()`. -/
def Wire.High (w : Wire) (l : Line) : Wire :=
  w.emit (.high l)

/-- Model of `pin.Low()`. -/
def Wire.Low (w : Wire) (l : Line) : Wire :=
  w.emit (.low l)

/-- Model of `time.Sleep(d)`. -/
def Wire.Sleep (w : Wire) (d : Nat) : Wire :=
  w.emit (.sleep d)

/-- Model of `pin.Get()`: the next level of the data stream is consumed and recorded. -/
def Wire.Get (w : Wire) (l : Line) : Bool × Wire :=
  (w.dat 0, { dat := fun n => w.dat (n + 1), trace := w.trace ++ [.get l (w.dat 0)] })

/-! ## gpsx.go: constants and the session record -/

def PS1 : Nat := 0
def PS2 : Nat := 1

abbrev Pad1 : Nat := 0
abbrev Pad2 : Nat := 1

abbrev PadBufferSize : Nat := 20

def Motor1Enable : Nat := 0x00
def Motor1Disable : Nat := 0xFF
def Motor2Enable : Nat := 0x01
def Motor2Disable : Nat := 0xFF
def Motor1On : Nat := 0xFF
def Motor1Off : Nat := 0x00

def ModeDigital : Nat := 0x00
def ModeAnalog : Nat := 0x01
def ModeLock : Nat := 0x03
def ModeUnlock : Nat := 0x02

abbrev stateCurrent : Nat := 0
abbrev statePrevious : Nat := 1

/-- Nanoseconds in `time.Microsecond`. -/
def Microsecond : Nat := 1000

/-- Nanoseconds in `time.Millisecond`. -/
def Millisecond : Nat := 1000000

/-- The pin numbers of `PinConfig`. -/
structure PinConfig where
  DAT : Nat
  CMD : Nat
  CLK : Nat
  AT1 : Nat
  AT2 : Nat
  ACK : Nat

/-- The session record `GPSX`. -/
structure GPSX where
  psxType : Nat
  pins : PinConfig
  waitAfterATT : Nat
  commandInterval : Nat
  clkHalfCycle : Nat
  ackWaitDuration : Nat
  keyState : Nat → Nat → Nat → Nat
  padState : Nat → Nat
  motor1Level : Nat → Nat
  motor2Level : Nat → Nat

/-- Array store `a[i] = v`. -/
def setAt {α : Type} (a : Nat → α) (i : Nat) (v : α) : Nat → α :=
  fun j => if j = i then v else a j

/-- Model of `init`: configure the pins and set their idle levels. -/
def GPSX.init (g : GPSX) (w : Wire) : Wire :=
  let w := w.Configure .CLK .PinOutput
  let w := w.Configure .CMD .PinOutput
  let w := w.Configure .DAT .PinInput
  let w := w.Configure .AT1 .PinOutput
  let w := if g.pins.AT2 ≠ 0 then w.Configure .AT2 .PinOutput else w
  let w := if g.pins.ACK ≠ 0 then w.Configure .ACK .PinInput else w
  let w := w.High .CLK
  let w := w.Low .CMD
  let w := w.High .AT1
  let w := if g.pins.AT2 ≠ 0 then w.High .AT2 else w
  w

/-- Model of `New`. -/
def New (psxType : Nat) (pins : PinConfig) (w : Wire) : GPSX × Wire :=
  let g : GPSX :=
    { psxType := psxType
      pins := pins
      waitAfterATT := 0
      commandInterval := 0
      clkHalfCycle := 0
      ackWaitDuration := 0
      keyState := fun _ _ _ => 0
      padState := fun _ => 0
      motor1Level := fun _ => 0
      motor2Level := fun _ => 0 }
  let g :=
    if psxType = PS1 then
      { g with
        waitAfterATT := 50 * Microsecond
        commandInterval := 16 * Millisecond
        clkHalfCycle := 2 * Microsecond
        ackWaitDuration := 15 * Microsecond }
    else
      { g with
        waitAfterATT := 15 * Microsecond
        commandInterval := 10 * Millisecond
        clkHalfCycle := 1 * Microsecond
        ackWaitDuration := 15 * Microsecond }
  let g := { g with motor1Level := fun _ => Motor1Off }
  let g := { g with motor2Level := fun _ => 0x00 }
  (g, g.init w)

/-! ## protocol.go -/

/-- The loop of `readWriteByte`, with `n` iterations still to run. -/
def GPSX.readWriteByteLoop (g : GPSX) : Nat → Nat → Nat → Wire → Nat × Wire
  | 0, _, received, w => (received, w)
  | n + 1, cmdByte, received, w =>
    let w := if cmdByte &&& 0x01 ≠ 0 then w.High .CMD else w.Low .CMD
    let cmdByte := cmdByte >>> 1
    let w := w.Low .CLK
    let w := w.Sleep g.clkHalfCycle
    let w := w.High .CLK
    let w := w.Sleep g.clkHalfCycle
    let received := received >>> 1
    let r := w.Get .DAT
    let received := if r.1 then received ||| 0x80 else received
    GPSX.readWriteByteLoop g n cmdByte received r.2

/-- Model of `readWriteByte`. -/
def GPSX.readWriteByte (g : GPSX) (w : Wire) (cmdByte : Nat) : Nat × Wire :=
  g.readWriteByteLoop 8 cmdByte 0 w

/-- The byte loop of `sendCommand`, at index `i` with `n` iterations still to run. -/
def sendCommandLoop (msg : List Nat) : Nat → Nat → GPSX → Wire → GPSX × Wire
  | 0, _, g, w => (g, w)
  | n + 1, i, g, w =>
    let cmd := if i < msg.length then msg.getD i 0 else 0x00
    let r := g.readWriteByte w cmd
    let g := { g with padState := setAt g.padState i r.1 }
    let w := r.2.Sleep g.ackWaitDuration
    sendCommandLoop msg n (i + 1) g w

/-- Model of `sendCommand`. -/
def GPSX.sendCommand (g : GPSX) (w : Wire) (pad : Nat) (msg : List Nat) : GPSX × Wire :=
  let attPin := if pad = Pad2 ∧ g.pins.AT2 ≠ 0 then Line.AT2 else Line.AT1
  let w := w.Low attPin
  let w := w.Sleep g.waitAfterATT
  let r := sendCommandLoop msg 9 0 g w
  let w := r.2.High attPin
  let w := w.Sleep r.1.commandInterval
  (r.1, w)

/-! ## gpsx.go: operations -/

/-- The copy loop of `UpdateState`, at index `i` with `n` iterations still to run. -/
def updateCopyLoop (pad : Nat) : Nat → Nat → GPSX → GPSX
  | 0, _, g => g
  | n + 1, i, g =>
    let g := { g with
      keyState := setAt g.keyState pad
        (setAt (g.keyState pad) stateCurrent
          (setAt (g.keyState pad stateCurrent) i (g.padState i))) }
    updateCopyLoop pad n (i + 1) g

/-- Model of `UpdateState`; `none` is the index fault of `g.keyState[pad]` for `pad ≥ 2`. -/
def GPSX.UpdateState (g : GPSX) (w : Wire) (pad : Nat) : Option (GPSX × Wire) :=
  if pad < 2 then
    let g := { g with
      keyState := setAt g.keyState pad
        (setAt (g.keyState pad) statePrevious (g.keyState pad stateCurrent)) }
    let pollCmd := [0x01, 0x42, 0x00, g.motor1Level pad, g.motor2Level pad]
    let r := g.sendCommand w pad pollCmd
    let g := updateCopyLoop pad 9 0 r.1
    let g := { g with
      keyState := setAt g.keyState pad
        (setAt (g.keyState pad) statePrevious
          (setAt (g.keyState pad statePrevious) 3
            (g.keyState pad statePrevious 3 ^^^ g.keyState pad stateCurrent 3))) }
    let g := { g with
      keyState := setAt g.keyState pad
        (setAt (g.keyState pad) statePrevious
          (setAt (g.keyState pad statePrevious) 4
            (g.keyState pad statePrevious 4 ^^^ g.keyState pad stateCurrent 4))) }
    some (g, r.2)
  else none

/-- Model of `Motor`; `none` is the index fault of `g.motor1Level[pad]` for `pad ≥ 2`. -/
def GPSX.Motor (g : GPSX) (w : Wire) (pad : Nat) (motor1OnOff : Nat) (motor2Level : Nat) :
    Option (GPSX × Wire) :=
  if pad < 2 then
    let g := { g with motor1Level := setAt g.motor1Level pad motor1OnOff }
    let g := { g with motor2Level := setAt g.motor2Level pad motor2Level }
    some (g, w)
  else none

/-- Model of `MotorEnable`. -/
def GPSX.MotorEnable (g : GPSX) (w : Wire) (pad : Nat) (motor1Enable : Nat) (motor2Enable : Nat) :
    GPSX × Wire :=
  let cmdEnableMotor := [0x01, 0x4D, 0x00, motor1Enable, motor2Enable, 0xFF, 0xFF, 0xFF, 0xFF]
  let cmdEnterCfg := [0x01, 0x43, 0x00, 0x01]
  let cmdExitCfg := [0x01, 0x43, 0x00, 0x00, 0x5A, 0x5A, 0x5A, 0x5A, 0x5A]
  let r := g.sendCommand w pad cmdEnterCfg
  let r := r.1.sendCommand r.2 pad cmdEnableMotor
  let r := r.1.sendCommand r.2 pad cmdExitCfg
  r

/-- Model of `Mode`. -/
def GPSX.Mode (g : GPSX) (w : Wire) (pad : Nat) (mode : Nat) (lock : Nat) : GPSX × Wire :=
  let cmdADMode := [0x01, 0x44, 0x00, mode, lock, 0x00, 0x00, 0x00, 0x00]
  let cmdEnterCfg := [0x01, 0x43, 0x00, 0x01]
  let cmdExitCfg := [0x01, 0x43, 0x00, 0x00, 0x5A, 0x5A, 0x5A, 0x5A, 0x5A]
  let r := g.sendCommand w pad cmdEnterCfg
  let r := r.1.sendCommand r.2 pad cmdADMode
  let r := r.1.sendCommand r.2 pad cmdExitCfg
  r

/-! ## buttons.go -/

/-- The descriptor `Button`. -/
structure Button where
  byteIndex : Nat
  bitMask : Nat
  deriving DecidableEq, Repr

def ButtonLeft : Button := ⟨3, 1 <<< 7⟩
def ButtonDown : Button := ⟨3, 1 <<< 6⟩
def ButtonRight : Button := ⟨3, 1 <<< 5⟩
def ButtonUp : Button := ⟨3, 1 <<< 4⟩
def ButtonStart : Button := ⟨3, 1 <<< 3⟩
def ButtonStickRight : Button := ⟨3, 1 <<< 2⟩
def ButtonStickLeft : Button := ⟨3, 1 <<< 1⟩
def ButtonSelect : Button := ⟨3, 1 <<< 0⟩
def ButtonSquare : Button := ⟨4, 1 <<< 7⟩
def ButtonCross : Button := ⟨4, 1 <<< 6⟩
def ButtonCircle : Button := ⟨4, 1 <<< 5⟩
def ButtonTriangle : Button := ⟨4, 1 <<< 4⟩
def ButtonR1 : Button := ⟨4, 1 <<< 3⟩
def ButtonL1 : Button := ⟨4, 1 <<< 2⟩
def ButtonR2 : Button := ⟨4, 1 <<< 1⟩
def ButtonL2 : Button := ⟨4, 1 <<< 0⟩

/-- The sixteen button definitions of buttons.go, in source order. -/
def catalogue : List Button :=
  [ButtonLeft, ButtonDown, ButtonRight, ButtonUp, ButtonStart, ButtonStickRight,
   ButtonStickLeft, ButtonSelect, ButtonSquare, ButtonCross, ButtonCircle, ButtonTriangle,
   ButtonR1, ButtonL1, ButtonR2, ButtonL2]

/-- Model of `IsDown`; `none` is an index fault (`pad ≥ 2` or `byteIndex ≥ 20`). -/
def GPSX.IsDown (g : GPSX) (pad : Nat) (btn : Button) : Option Bool :=
  if pad < 2 ∧ btn.byteIndex < PadBufferSize then
    some (decide (g.keyState pad stateCurrent btn.byteIndex &&& btn.bitMask = 0))
  else none

/-- Model of `Pressed`; `none` is an index fault. -/
def GPSX.Pressed (g : GPSX) (pad : Nat) (btn : Button) : Option Bool :=
  if pad < 2 ∧ btn.byteIndex < PadBufferSize then
    let prev := g.keyState pad statePrevious btn.byteIndex &&& btn.bitMask
    let curr := g.keyState pad stateCurrent btn.byteIndex &&& btn.bitMask
    some (decide (prev ≠ 0) && decide (curr = 0))
  else none

/-- Model of `Released`; `none` is an index fault. -/
def GPSX.Released (g : GPSX) (pad : Nat) (btn : Button) : Option Bool :=
  if pad < 2 ∧ btn.byteIndex < PadBufferSize then
    let prev := g.keyState pad statePrevious btn.byteIndex &&& btn.bitMask
    let curr := g.keyState pad stateCurrent btn.byteIndex &&& btn.bitMask
    some (decide (prev ≠ 0) && decide (curr ≠ 0))
  else none

/-- Model of `AnalogRightX`; `none` is the index fault for `pad ≥ 2`. -/
def GPSX.AnalogRightX (g : GPSX) (pad : Nat) : Option Nat :=
  if pad < 2 then some (g.keyState pad stateCurrent 5) else none

/-- Model of `AnalogRightY`. -/
def GPSX.AnalogRightY (g : GPSX) (pad : Nat) : Option Nat :=
  if pad < 2 then some (g.keyState pad stateCurrent 6) else none

/-- Model of `AnalogLeftX`. -/
def GPSX.AnalogLeftX (g : GPSX) (pad : Nat) : Option Nat :=
  if pad < 2 then some (g.keyState pad stateCurrent 7) else none

/-- Model of `AnalogLeftY`. -/
def GPSX.AnalogLeftY (g : GPSX) (pad : Nat) : Option Nat :=
  if pad < 2 then some (g.keyState pad stateCurrent 8) else none

/-- Model of `IsAnalog`. -/
def GPSX.IsAnalog (g : GPSX) (pad : Nat) : Option Bool :=
  if pad < 2 then some (decide (g.keyState pad stateCurrent 1 &&& 0xF0 = 0x70)) else none

/-- Model of `IsDigital`. -/
def GPSX.IsDigital (g : GPSX) (pad : Nat) : Option Bool :=
  if pad < 2 then some (decide (g.keyState pad stateCurrent 1 &&& 0xF0 = 0x40)) else none

/-! ## Reading the event trace -/

/-- The events `w'` has recorded on top of those of `w`. -/
def newEvents (w w' : Wire) : List Event :=
  w'.trace.drop w.trace.length

/-- The level of the command line at each falling clock edge, given its level at the start. -/
def cmdBits : Bool → List Event → List Bool
  | _, [] => []
  | lvl, e :: es =>
    if e = .high .CMD then cmdBits true es
    else if e = .low .CMD then cmdBits false es
    else if e = .low .CLK then lvl :: cmdBits lvl es
    else cmdBits lvl es

/-- The levels sampled from the data line, in order. -/
def datBits : List Event → List Bool
  | [] => []
  | .get .DAT lvl :: es => lvl :: datBits es
  | _ :: es => datBits es

/-- The value of a bit string whose first bit is the least significant one. -/
def byteOfBits : List Bool → Nat
  | [] => 0
  | b :: bs => b.toNat + 2 * byteOfBits bs

/-- Cut a bit string into bytes of eight bits, first bit least significant. -/
def bytesOf : List Bool → List Nat
  | b0 :: b1 :: b2 :: b3 :: b4 :: b5 :: b6 :: b7 :: rest =>
    byteOfBits [b0, b1, b2, b3, b4, b5, b6, b7] :: bytesOf rest
  | _ => []

/-- Whether an event pulls an attention line low. -/
def isAttLow (e : Event) : Bool :=
  decide (e = .low .AT1) || decide (e = .low .AT2)

/-- Whether an event releases an attention line. -/
def isAttHigh (e : Event) : Bool :=
  decide (e = .high .AT1) || decide (e = .high .AT2)

/-- Cut a trace into transactions: the events between an attention line going low and the next
release of an attention line.  The first argument is the transaction being collected. -/
def transactionsAux : Option (List Event) → List Event → List (List Event)
  | _, [] => []
  | none, e :: es =>
    if isAttLow e then transactionsAux (some []) es else transactionsAux none es
  | some cur, e :: es =>
    if isAttHigh e then cur :: transactionsAux none es
    else transactionsAux (some (cur ++ [e])) es

/-- The transactions of a trace. -/
def transactions (t : List Event) : List (List Event) :=
  transactionsAux none t

/-- The bytes clocked out on the command line, per transaction. -/
def clockedOut (t : List Event) : List (List Nat) :=
  (transactions t).map (fun f => bytesOf (cmdBits false f))

/-- The bytes sampled from the data line, per transaction. -/
def clockedIn (t : List Event) : List (List Nat) :=
  (transactions t).map (fun f => bytesOf (datBits f))

/-- The events of `n` iterations of the loop of `readWriteByte`. -/
def bitEvents (h : Nat) : Nat → Nat → (Nat → Bool) → List Event
  | 0, _, _ => []
  | n + 1, c, d =>
    [if c &&& 0x01 ≠ 0 then Event.high .CMD else Event.low .CMD,
     .low .CLK, .sleep h, .high .CLK, .sleep h, .get .DAT (d 0)]
      ++ bitEvents h n (c >>> 1) (fun k => d (k + 1))

/-- The value `n` iterations of the loop of `readWriteByte` leave in `received`. -/
def recvLoop : Nat → Nat → (Nat → Bool) → Nat
  | 0, received, _ => received
  | n + 1, received, d =>
    recvLoop n (if d 0 then received >>> 1 ||| 0x80 else received >>> 1) (fun k => d (k + 1))

/-- The command byte of position `i`: `msg[i]`, or zero past the end of `msg`. -/
def cmdAt (msg : List Nat) (i : Nat) : Nat :=
  if i < msg.length then msg.getD i 0 else 0x00

/-- The events of `n` iterations of the byte loop of `sendCommand`, from index `i`. -/
def byteEvents (h a : Nat) (msg : List Nat) : Nat → Nat → (Nat → Bool) → List Event
  | 0, _, _ => []
  | n + 1, i, d =>
    bitEvents h 8 (cmdAt msg i) d ++ [Event.sleep a]
      ++ byteEvents h a msg n (i + 1) (fun k => d (k + 8))

/-- The low `n` bits of `c`, least significant first. -/
def natBits : Nat → Nat → List Bool
  | 0, _ => []
  | n + 1, c => decide (c &&& 0x01 ≠ 0) :: natBits n (c >>> 1)

/-- The level of the command line after `n` iterations of the loop of `readWriteByte`. -/
def lvlAfter (lvl : Bool) : Nat → Nat → Bool
  | 0, _ => lvl
  | n + 1, c => lvlAfter (decide (c &&& 0x01 ≠ 0)) n (c >>> 1)

/-- The first `n` levels of a data stream. -/
def takeBits : Nat → (Nat → Bool) → List Bool
  | 0, _ => []
  | n + 1, d => d 0 :: takeBits n (fun k => d (k + 1))

/-- The attention line `sendCommand` selects for `pad`. -/
def attLine (g : GPSX) (pad : Nat) : Line :=
  if pad = Pad2 ∧ g.pins.AT2 ≠ 0 then Line.AT2 else Line.AT1

/-- The events of one `sendCommand` between pulling attention low and releasing it. -/
def frameBody (g : GPSX) (msg : List Nat) (d : Nat → Bool) : List Event :=
  Event.sleep g.waitAfterATT :: byteEvents g.clkHalfCycle g.ackWaitDuration msg 9 0 d

/-- The events of one `sendCommand`. -/
def frameEvents (g : GPSX) (pad : Nat) (msg : List Nat) (d : Nat → Bool) : List Event :=
  Event.low (attLine g pad) :: frameBody g msg d
    ++ [Event.high (attLine g pad), Event.sleep g.commandInterval]

/-- The response bytes of one transaction whose samples are the stream `d`. -/
def response (d : Nat → Bool) (i : Nat) : Nat :=
  recvLoop 8 0 (fun k => d (k + 8 * i))

/-- The bytes `n` iterations of the byte loop of `sendCommand` clock out, from index `i`. -/
def sentBytes (msg : List Nat) : Nat → Nat → List Nat
  | 0, _ => []
  | n + 1, i => cmdAt msg i % 256 :: sentBytes msg n (i + 1)

/-- The response bytes `i`, `i + 1`, ... (`n` of them) of a transaction with sample stream `d`. -/
def recvBytes (d : Nat → Bool) : Nat → Nat → List Nat
  | 0, _ => []
  | n + 1, i => response d i :: recvBytes d n (i + 1)

/-- The poll command `UpdateState` builds for `pad`. -/
def pollCmd (g : GPSX) (pad : Nat) : List Nat :=
  [0x01, 0x42, 0x00, g.motor1Level pad, g.motor2Level pad]

/-- The response the poll transaction of `UpdateState(pad)` stores in `padState`, when it is
run from session `g` on wire `w`. -/
def pollResponse (g : GPSX) (w : Wire) (pad : Nat) : Nat → Nat :=
  (g.sendCommand w pad (pollCmd g pad)).1.padState

/-! ## Sequences of calls -/

/-- One call of the exported operations that change the session or use the wire. -/
inductive Call
  | updateState (pad : Nat)
  | motor (pad : Nat) (motor1OnOff : Nat) (motor2Level : Nat)
  | motorEnable (pad : Nat) (motor1Enable : Nat) (motor2Enable : Nat)
  | mode (pad : Nat) (mode : Nat) (lock : Nat)
  deriving DecidableEq, Repr

/-- A call the Go program can make without an index fault: its `uint8` arguments are bytes, and
the pad of `UpdateState` and `Motor` is `Pad1` or `Pad2`. -/
def Call.valid : Call → Bool
  | .updateState pad => decide (pad = Pad1 ∨ pad = Pad2)
  | .motor pad m1 m2 => decide ((pad = Pad1 ∨ pad = Pad2) ∧ m1 < 256 ∧ m2 < 256)
  | .motorEnable pad e1 e2 => decide (pad < 256 ∧ e1 < 256 ∧ e2 < 256)
  | .mode pad m l => decide (pad < 256 ∧ m < 256 ∧ l < 256)

/-- Run one call. -/
def step (s : GPSX × Wire) : Call → Option (GPSX × Wire)
  | .updateState pad => s.1.UpdateState s.2 pad
  | .motor pad m1 m2 => s.1.Motor s.2 pad m1 m2
  | .motorEnable pad e1 e2 => some (s.1.MotorEnable s.2 pad e1 e2)
  | .mode pad m l => some (s.1.Mode s.2 pad m l)

/-- Run a sequence of calls, first call first. -/
def run (s : GPSX × Wire) : List Call → Option (GPSX × Wire)
  | [] => some s
  | c :: cs => (step s c).bind (fun s' => run s' cs)

/-- The arguments of the most recent `Motor` call for `pad` in a sequence of calls, or `cur` when
there is none. -/
def lastMotorFrom (pad : Nat) (cur : Nat × Nat) : List Call → Nat × Nat
  | [] => cur
  | .motor p m1 m2 :: cs =>
    if p = pad then lastMotorFrom pad (m1, m2) cs else lastMotorFrom pad cur cs
  | _ :: cs => lastMotorFrom pad cur cs

/-- The arguments of the most recent `Motor` call for `pad`, or `(0x00, 0x00)`. -/
def lastMotor (pad : Nat) (cs : List Call) : Nat × Nat :=
  lastMotorFrom pad (0x00, 0x00) cs

/-! ## Concrete sessions -/

/-- The pin assignment of examples/basic, without an acknowledge input. -/
def examplePins : PinConfig :=
  { DAT := 2, CMD := 3, CLK := 4, AT1 := 5, AT2 := 6, ACK := 0 }

/-- A wire on which nothing has happened yet and whose data line will show `d`. -/
def freshWire (d : Nat → Bool) : Wire :=
  { dat := d, trace := [] }

/-- A data line that is high at every sample but the listed ones. -/
def highExcept (lows : List Nat) : Nat → Bool :=
  fun n => !(lows.contains n)

/-- A session in which nothing is held on either pad: every state byte is `0xFF`. -/
def idleSession : GPSX :=
  { (New PS2 examplePins (freshWire (highExcept []))).1 with keyState := fun _ _ _ => 0xFF }

/-- The pin assignment of the package documentation: one pad, no attention-2 line. -/
def singlePadPins : PinConfig :=
  { DAT := 2, CMD := 3, CLK := 4, AT1 := 5, AT2 := 0, ACK := 0 }

/-- A new session without an attention-2 line. -/
def singlePadSession : GPSX × Wire :=
  New PS2 singlePadPins (freshWire (highExcept []))

/-! ## Reading one byte transfer -/

/-- What iteration `k` of the loop of `readWriteByte(b)` is to do: drive the command line to bit
`k` of `b`, pulse the clock low then high for `h` each, and sample the data line (level `d k`). -/
def iterationEvents (h b : Nat) (d : Nat → Bool) (k : Nat) : List Event :=
  [if b.testBit k then Event.high .CMD else Event.low .CMD,
   .low .CLK, .sleep h, .high .CLK, .sleep h, .get .DAT (d k)]

/-- Whether an event drives the command line. -/
def isCmdDrive (e : Event) : Bool :=
  decide (e = .high .CMD) || decide (e = .low .CMD)

/-! ## Delays -/

/-- The sum of the delays requested in a trace, in nanoseconds. -/
def totalSleep : List Event → Nat
  | [] => 0
  | .sleep d :: es => d + totalSleep es
  | _ :: es => totalSleep es

/-- The four durations of the timing profile of a session, in the order `waitAfterATT`,
`commandInterval`, `clkHalfCycle`, `ackWaitDuration`. -/
def GPSX.timing (g : GPSX) : Nat × Nat × Nat × Nat :=
  (g.waitAfterATT, g.commandInterval, g.clkHalfCycle, g.ackWaitDuration)

/-- A data line that is low at every sample. -/
def alwaysLow : Nat → Bool :=
  fun _ => false

/-! ## Line levels -/

/-- The level last driven on line `l` by the events of a trace, or `cur` when none drives it. -/
def lastLevelFrom (l : Line) : Option Bool → List Event → Option Bool
  | cur, [] => cur
  | cur, e :: es =>
    lastLevelFrom l
      (if e = Event.high l then some true else if e = Event.low l then some false else cur) es

/-- The level last driven on line `l` in a trace, if the line was driven at all. -/
def lastLevel (l : Line) (t : List Event) : Option Bool :=
  lastLevelFrom l none t

/-- The link is idle: the clock was last driven high, and so was every configured attention
line. -/
def idleLines (s : GPSX × Wire) : Prop :=
  lastLevel Line.CLK s.2.trace = some true ∧
    lastLevel Line.AT1 s.2.trace = some true ∧
    (s.1.pins.AT2 ≠ 0 → lastLevel Line.AT2 s.2.trace = some true)

/-- A data line wired back to the command line for a transaction sending `msg`: sample `n` shows
bit `n % 8` of command byte `n / 8`. -/
def loopback (msg : List Nat) : Nat → Bool :=
  fun n => (cmdAt msg (n / 8)).testBit (n % 8)

/-! ## examples/dengo_ts_emu/main.go -/

namespace DengoTsEmu

/-- The handle commands, indexed by handle position. -/
def tsCmdHandle : List String :=
  ["TSB20", "TSB30", "TSB40", "TSE99", "TSA05", "TSA15", "TSA25", "TSA35",
   "TSA45", "TSA50", "TSA55", "TSA65", "TSA75", "TSA85", "TSA95"]

/-- The record `MasconState`. -/
structure MasconState where
  notch : Nat
  brake : Nat
  handle : Nat
  buttonA : Bool
  buttonB : Bool
  buttonC : Bool
  buttonStart : Bool
  buttonSelect : Bool
  deriving DecidableEq, Repr

def handleContact1 : Nat := 0b0001
def handleContact2 : Nat := 0b0010
def handleContact3 : Nat := 0b0100
def handleContact4 : Nat := 0b1000

def mapNotchOff : Nat := 0b0111
def mapNotch1 : Nat := 0b1110
def mapNotch2 : Nat := 0b0110
def mapNotch3 : Nat := 0b1011
def mapNotch4 : Nat := 0b0011
def mapNotch5 : Nat := 0b1010

def mapBrakeOff : Nat := 0b1101
def mapBrake1 : Nat := 0b0111
def mapBrake2 : Nat := 0b0101
def mapBrake3 : Nat := 0b1110
def mapBrake4 : Nat := 0b1100
def mapBrake5 : Nat := 0b0110
def mapBrake6 : Nat := 0b0100
def mapBrake7 : Nat := 0b1011
def mapBrake8 : Nat := 0b1001
def mapBrakeEmer : Nat := 0b0000

/-- Model of `getNotchState`. -/
def getNotchState (notchPosition : Nat) : Nat :=
  if notchPosition = mapNotchOff then 0
  else if notchPosition = mapNotch1 then 1
  else if notchPosition = mapNotch2 then 2
  else if notchPosition = mapNotch3 then 3
  else if notchPosition = mapNotch4 then 4
  else if notchPosition = mapNotch5 then 5
  else 0xff

/-- Model of `getBrakeState`. -/
def getBrakeState (brakePosition : Nat) : Nat :=
  if brakePosition = mapBrakeOff then 0
  else if brakePosition = mapBrake1 then 1
  else if brakePosition = mapBrake2 then 2
  else if brakePosition = mapBrake3 then 3
  else if brakePosition = mapBrake4 then 4
  else if brakePosition = mapBrake5 then 5
  else if brakePosition = mapBrake6 then 6
  else if brakePosition = mapBrake7 then 7
  else if brakePosition = mapBrake8 then 8
  else if brakePosition = mapBrakeEmer then 9
  else 0xff

/-- Model of `getMasconState`, with the global `psx` and the wire passed in and returned.  The
`uint8` subtraction and addition wrap modulo 256.  A Go condition `psx.IsDown(Pad1, b)` is the
test `psx.IsDown Pad1 b = some true`: the pad is `Pad1` and `b` is one of the button
definitions, so the read has no index fault. -/
def getMasconState (psx : GPSX) (w : Wire) : Option (MasconState × GPSX × Wire) :=
  let currentState : MasconState :=
    { notch := 0xff, brake := 0xff, handle := 0xff, buttonA := false, buttonB := false,
      buttonC := false, buttonStart := false, buttonSelect := false }
  match psx.UpdateState w Pad1 with
  | none => none
  | some r =>
    let psx := r.1
    let w := r.2
    let notchPosition : Nat := 0
    let notchPosition :=
      if psx.IsDown Pad1 ButtonLeft = some true then notchPosition ||| handleContact1
      else notchPosition
    let notchPosition :=
      if psx.IsDown Pad1 ButtonDown = some true then notchPosition ||| handleContact2
      else notchPosition
    let notchPosition :=
      if psx.IsDown Pad1 ButtonRight = some true then notchPosition ||| handleContact3
      else notchPosition
    let notchPosition :=
      if psx.IsDown Pad1 ButtonTriangle = some true then notchPosition ||| handleContact4
      else notchPosition
    let currentState := { currentState with notch := getNotchState notchPosition }
    let brakePosition : Nat := 0
    let brakePosition :=
      if psx.IsDown Pad1 ButtonR1 = some true then brakePosition ||| handleContact1
      else brakePosition
    let brakePosition :=
      if psx.IsDown Pad1 ButtonL1 = some true then brakePosition ||| handleContact2
      else brakePosition
    let brakePosition :=
      if psx.IsDown Pad1 ButtonR2 = some true then brakePosition ||| handleContact3
      else brakePosition
    let brakePosition :=
      if psx.IsDown Pad1 ButtonL2 = some true then brakePosition ||| handleContact4
      else brakePosition
    let currentState := { currentState with brake := getBrakeState brakePosition }
    let currentState :=
      if currentState.brake ≠ 0xff ∧ currentState.notch ≠ 0xff then
        if currentState.brake ≠ 0 then
          { currentState with handle := (9 + 256 - currentState.brake) % 256 }
        else
          { currentState with handle := (currentState.notch + 9) % 256 }
      else
        { currentState with handle := 0xff }
    let currentState :=
      if psx.IsDown Pad1 ButtonSquare = some true then { currentState with buttonA := true }
      else currentState
    let currentState :=
      if psx.IsDown Pad1 ButtonCross = some true then { currentState with buttonB := true }
      else currentState
    let currentState :=
      if psx.IsDown Pad1 ButtonCircle = some true then { currentState with buttonC := true }
      else currentState
    let currentState :=
      if psx.IsDown Pad1 ButtonStart = some true then { currentState with buttonStart := true }
      else currentState
    let currentState :=
      if psx.IsDown Pad1 ButtonSelect = some true then
        { currentState with buttonSelect := true }
      else currentState
    some (currentState, psx, w)

end DengoTsEmu

end Gpsx

namespace Gpsx

/-! ## The wire primitives -/

@[simp] theorem setAt_apply {α : Type} (a : Nat → α) (i : Nat) (v : α) (j : Nat) :
    setAt a i v j = if j = i then v else a j := rfl

@[simp] theorem emit_trace (w : Wire) (e : Event) : (w.emit e).trace = w.trace ++ [e] := rfl

@[simp] theorem emit_dat (w : Wire) (e : Event) : (w.emit e).dat = w.dat := rfl

@[simp] theorem get_fst (w : Wire) (l : Line) : (w.Get l).1 = w.dat 0 := rfl

@[simp] theorem get_trace (w : Wire) (l : Line) :
    (w.Get l).2.trace = w.trace ++ [.get l (w.dat 0)] := rfl

@[simp] theorem get_dat (w : Wire) (l : Line) : (w.Get l).2.dat = fun n => w.dat (n + 1) := rfl

/-! ## readWriteByte -/

theorem readWriteByteLoop_trace (g : GPSX) (n c r : Nat) (w : Wire) :
    (g.readWriteByteLoop n c r w).2.trace = w.trace ++ bitEvents g.clkHalfCycle n c w.dat := by
  induction n generalizing c r w with
  | zero => simp [GPSX.readWriteByteLoop, bitEvents]
  | succ n ih =>
    rw [GPSX.readWriteByteLoop, bitEvents]
    simp only [ih]
    split <;> simp [Wire.High, Wire.Low, Wire.Sleep]

theorem readWriteByteLoop_dat (g : GPSX) (n c r : Nat) (w : Wire) :
    (g.readWriteByteLoop n c r w).2.dat = fun k => w.dat (k + n) := by
  induction n generalizing c r w with
  | zero => simp [GPSX.readWriteByteLoop]
  | succ n ih =>
    rw [GPSX.readWriteByteLoop]
    simp only [ih]
    funext k
    split <;> simp [Wire.High, Wire.Low, Wire.Sleep, Nat.add_assoc, Nat.add_comm 1 n]

theorem readWriteByteLoop_fst (g : GPSX) (n c r : Nat) (w : Wire) :
    (g.readWriteByteLoop n c r w).1 = recvLoop n r w.dat := by
  induction n generalizing c r w with
  | zero => simp [GPSX.readWriteByteLoop, recvLoop]
  | succ n ih =>
    rw [GPSX.readWriteByteLoop, recvLoop]
    simp only [ih]
    split <;> simp [Wire.High, Wire.Low, Wire.Sleep]

/-! ## sendCommand -/

theorem sendCommandLoop_frame (msg : List Nat) (n i : Nat) (g : GPSX) (w : Wire) :
    (sendCommandLoop msg n i g w).1
      = { g with padState := (sendCommandLoop msg n i g w).1.padState } := by
  induction n generalizing i g w with
  | zero => simp [sendCommandLoop]
  | succ n ih =>
    rw [sendCommandLoop]
    simp only []
    rw [ih]

theorem sendCommandLoop_padState (msg : List Nat) (n i : Nat) (g : GPSX) (w : Wire) (j : Nat) :
    (sendCommandLoop msg n i g w).1.padState j
      = if i ≤ j ∧ j < i + n then response w.dat (j - i) else g.padState j := by
  induction n generalizing i g w with
  | zero =>
    have : ¬ (i ≤ j ∧ j < i) := by omega
    simp [sendCommandLoop, this]
  | succ n ih =>
    rw [sendCommandLoop]
    simp only []
    rw [ih]
    simp only [GPSX.readWriteByte, Wire.Sleep, emit_dat, readWriteByteLoop_dat,
      readWriteByteLoop_fst, setAt, response]
    by_cases h1 : j = i
    · subst h1
      have h2 : ¬ (j + 1 ≤ j ∧ j < j + 1 + n) := by omega
      have h3 : j ≤ j ∧ j < j + (n + 1) := by omega
      simp [h2, h3]
    · by_cases h2 : i + 1 ≤ j ∧ j < i + 1 + n
      · have h3 : i ≤ j ∧ j < i + (n + 1) := by omega
        have h4 : ∀ k, k + 8 * (j - (i + 1)) + 8 = k + 8 * (j - i) := by intro k; omega
        simp [h1, h2, h3, h4]
      · have h3 : ¬ (i ≤ j ∧ j < i + (n + 1)) := by omega
        simp [h1, h2, h3]

theorem sendCommandLoop_trace (msg : List Nat) (n i : Nat) (g : GPSX) (w : Wire) :
    (sendCommandLoop msg n i g w).2.trace
      = w.trace ++ byteEvents g.clkHalfCycle g.ackWaitDuration msg n i w.dat := by
  induction n generalizing i g w with
  | zero => simp [sendCommandLoop, byteEvents]
  | succ n ih =>
    rw [sendCommandLoop, byteEvents]
    simp only []
    rw [ih]
    simp [GPSX.readWriteByte, Wire.Sleep, readWriteByteLoop_trace, readWriteByteLoop_dat, cmdAt]

theorem sendCommandLoop_dat (msg : List Nat) (n i : Nat) (g : GPSX) (w : Wire) :
    (sendCommandLoop msg n i g w).2.dat = fun k => w.dat (k + 8 * n) := by
  induction n generalizing i g w with
  | zero => simp [sendCommandLoop]
  | succ n ih =>
    rw [sendCommandLoop]
    simp only []
    rw [ih]
    funext k
    simp only [GPSX.readWriteByte, Wire.Sleep, emit_dat, readWriteByteLoop_dat]
    rw [show k + 8 * n + 8 = k + 8 * (n + 1) by omega]

theorem sendCommand_frame (g : GPSX) (w : Wire) (pad : Nat) (msg : List Nat) :
    (g.sendCommand w pad msg).1
      = { g with padState := (g.sendCommand w pad msg).1.padState } := by
  simp only [GPSX.sendCommand]
  exact sendCommandLoop_frame _ _ _ _ _

theorem sendCommand_padState (g : GPSX) (w : Wire) (pad : Nat) (msg : List Nat) (j : Nat) :
    (g.sendCommand w pad msg).1.padState j
      = if j < 9 then response w.dat j else g.padState j := by
  simp only [GPSX.sendCommand, sendCommandLoop_padState, Wire.Sleep, Wire.Low, emit_dat]
  simp

theorem sendCommand_trace (g : GPSX) (w : Wire) (pad : Nat) (msg : List Nat) :
    (g.sendCommand w pad msg).2.trace = w.trace ++ frameEvents g pad msg w.dat := by
  have hc : ∀ w0, (sendCommandLoop msg 9 0 g w0).1.commandInterval = g.commandInterval :=
    fun w0 => by rw [sendCommandLoop_frame]
  simp [GPSX.sendCommand, attLine, Wire.High, Wire.Sleep, Wire.Low, sendCommandLoop_trace,
    frameEvents, frameBody, hc]

theorem sendCommand_dat (g : GPSX) (w : Wire) (pad : Nat) (msg : List Nat) :
    (g.sendCommand w pad msg).2.dat = fun k => w.dat (k + 72) := by
  simp [GPSX.sendCommand, Wire.High, Wire.Sleep, Wire.Low, sendCommandLoop_dat]

theorem newEvents_of_trace (w w' : Wire) (ev : List Event) (h : w'.trace = w.trace ++ ev) :
    newEvents w w' = ev := by
  simp [newEvents, h]

theorem sendCommand_newEvents (g : GPSX) (w : Wire) (pad : Nat) (msg : List Nat) :
    newEvents w (g.sendCommand w pad msg).2 = frameEvents g pad msg w.dat :=
  newEvents_of_trace _ _ _ (sendCommand_trace g w pad msg)

/-! ## Reading the events of a transaction -/

theorem cmdBits_bitEvents (lvl : Bool) (h n c : Nat) (d : Nat → Bool) (rest : List Event) :
    cmdBits lvl (bitEvents h n c d ++ rest)
      = natBits n c ++ cmdBits (lvlAfter lvl n c) rest := by
  induction n generalizing lvl c d with
  | zero => simp [bitEvents, natBits, lvlAfter]
  | succ n ih =>
    rw [bitEvents, natBits, lvlAfter]
    by_cases hc : c &&& 0x01 ≠ 0
    · rw [if_pos hc, decide_eq_true hc]
      simp [cmdBits, ih]
    · rw [if_neg hc, decide_eq_false hc]
      simp [cmdBits, ih]

theorem datBits_bitEvents (h n c : Nat) (d : Nat → Bool) (rest : List Event) :
    datBits (bitEvents h n c d ++ rest) = takeBits n d ++ datBits rest := by
  induction n generalizing c d with
  | zero => simp [bitEvents, takeBits]
  | succ n ih =>
    rw [bitEvents, takeBits]
    by_cases hc : c &&& 0x01 ≠ 0
    · rw [if_pos hc]
      simp [datBits, ih]
    · rw [if_neg hc]
      simp [datBits, ih]

theorem byteOfBits_natBits (n c : Nat) : byteOfBits (natBits n c) = c % 2 ^ n := by
  induction n generalizing c with
  | zero => simp [natBits, byteOfBits, Nat.mod_one]
  | succ n ih =>
    rw [natBits, byteOfBits, ih, pow_succ', Nat.mod_mul, Nat.shiftRight_eq_div_pow]
    have h1 : c &&& 1 = c % 2 := Nat.and_one_is_mod c
    rcases Nat.mod_two_eq_zero_or_one c with h | h <;> simp [h1, h]

theorem recvLoop_explicit (d : Nat → Bool) (b0 b1 b2 b3 b4 b5 b6 b7 : Bool)
    (h0 : d 0 = b0) (h1 : d 1 = b1) (h2 : d 2 = b2) (h3 : d 3 = b3) (h4 : d 4 = b4)
    (h5 : d 5 = b5) (h6 : d 6 = b6) (h7 : d 7 = b7) :
    recvLoop 8 0 d = byteOfBits [b0, b1, b2, b3, b4, b5, b6, b7] := by
  simp only [recvLoop, Nat.zero_add, Nat.reduceAdd, h0, h1, h2, h3, h4, h5, h6, h7]
  cases b0 <;> cases b1 <;> cases b2 <;> cases b3 <;> cases b4 <;> cases b5 <;> cases b6 <;>
    cases b7 <;> rfl

theorem recvLoop_eq (d : Nat → Bool) : recvLoop 8 0 d = byteOfBits (takeBits 8 d) := by
  simp only [takeBits, Nat.zero_add, Nat.reduceAdd]
  exact recvLoop_explicit d _ _ _ _ _ _ _ _ rfl rfl rfl rfl rfl rfl rfl rfl

theorem natBits_length (n c : Nat) : (natBits n c).length = n := by
  induction n generalizing c with
  | zero => rfl
  | succ n ih => simp [natBits, ih]

theorem takeBits_length (n : Nat) (d : Nat → Bool) : (takeBits n d).length = n := by
  induction n generalizing d with
  | zero => rfl
  | succ n ih => simp [takeBits, ih]

theorem bytesOf_append8 (bs rest : List Bool) (h : bs.length = 8) :
    bytesOf (bs ++ rest) = byteOfBits bs :: bytesOf rest := by
  match bs, h with
  | [_, _, _, _, _, _, _, _], _ => rfl

theorem cmdBits_sleep (lvl : Bool) (a : Nat) (es : List Event) :
    cmdBits lvl (Event.sleep a :: es) = cmdBits lvl es := by
  simp [cmdBits]

theorem datBits_sleep (a : Nat) (es : List Event) :
    datBits (Event.sleep a :: es) = datBits es := by
  simp [datBits]

theorem bytesOf_cmdBits_byteEvents (lvl : Bool) (h a : Nat) (msg : List Nat) (n i : Nat)
    (d : Nat → Bool) :
    bytesOf (cmdBits lvl (byteEvents h a msg n i d)) = sentBytes msg n i := by
  induction n generalizing lvl i d with
  | zero => simp [byteEvents, sentBytes, cmdBits, bytesOf]
  | succ n ih =>
    rw [byteEvents, sentBytes, List.append_assoc, cmdBits_bitEvents,
      List.singleton_append, cmdBits_sleep, bytesOf_append8 _ _ (natBits_length 8 _),
      byteOfBits_natBits, ih]
    rfl

theorem bytesOf_datBits_byteEvents (h a : Nat) (msg : List Nat) (n i j : Nat)
    (d : Nat → Bool) :
    bytesOf (datBits (byteEvents h a msg n i (fun k => d (k + 8 * j)))) = recvBytes d n j := by
  induction n generalizing i j with
  | zero => simp [byteEvents, recvBytes, datBits, bytesOf]
  | succ n ih =>
    have hs : (fun k => d (k + 8 + 8 * j)) = fun k => d (k + 8 * (j + 1)) := by
      funext k
      rw [show k + 8 + 8 * j = k + 8 * (j + 1) by omega]
    rw [byteEvents, recvBytes, List.append_assoc, datBits_bitEvents,
      List.singleton_append, datBits_sleep, bytesOf_append8 _ _ (takeBits_length 8 _),
      ← recvLoop_eq]
    simp only [hs, ih]
    rfl

/-! ## Cutting a trace into transactions -/

theorem transactionsAux_none_cons (e : Event) (es : List Event) :
    transactionsAux none (e :: es)
      = if isAttLow e then transactionsAux (some []) es else transactionsAux none es := rfl

theorem transactionsAux_some_cons (cur : List Event) (e : Event) (es : List Event) :
    transactionsAux (some cur) (e :: es)
      = if isAttHigh e then cur :: transactionsAux none es
        else transactionsAux (some (cur ++ [e])) es := rfl

theorem transactionsAux_append (cur body rest : List Event)
    (h : ∀ e ∈ body, isAttHigh e = false) :
    transactionsAux (some cur) (body ++ rest) = transactionsAux (some (cur ++ body)) rest := by
  induction body generalizing cur with
  | nil => simp
  | cons e es ih =>
    have he : isAttHigh e = false := h e (List.mem_cons_self _ _)
    have hes : ∀ x ∈ es, isAttHigh x = false := fun x hx => h x (List.mem_cons_of_mem _ hx)
    rw [List.cons_append, transactionsAux]
    simp only [he, Bool.false_eq_true, if_false]
    rw [ih _ hes]
    simp

theorem bitEvents_noAttHigh (h n c : Nat) (d : Nat → Bool) :
    ∀ e ∈ bitEvents h n c d, isAttHigh e = false := by
  induction n generalizing c d with
  | zero => simp [bitEvents]
  | succ n ih =>
    intro e he
    rw [bitEvents, List.mem_append] at he
    rcases he with he | he
    · by_cases hc : c &&& 0x01 ≠ 0
      · rw [if_pos hc] at he
        simp at he
        rcases he with rfl | rfl | rfl | rfl | rfl | rfl <;> simp [isAttHigh]
      · rw [if_neg hc] at he
        simp at he
        rcases he with rfl | rfl | rfl | rfl | rfl | rfl <;> simp [isAttHigh]
    · exact ih _ _ e he

theorem byteEvents_noAttHigh (h a : Nat) (msg : List Nat) (n i : Nat) (d : Nat → Bool) :
    ∀ e ∈ byteEvents h a msg n i d, isAttHigh e = false := by
  induction n generalizing i d with
  | zero => simp [byteEvents]
  | succ n ih =>
    intro e he
    rw [byteEvents, List.mem_append, List.mem_append] at he
    rcases he with (he | he) | he
    · exact bitEvents_noAttHigh _ _ _ _ e he
    · simp at he
      subst he
      simp [isAttHigh]
    · exact ih _ _ e he

theorem frameBody_noAttHigh (g : GPSX) (msg : List Nat) (d : Nat → Bool) :
    ∀ e ∈ frameBody g msg d, isAttHigh e = false := by
  intro e he
  rw [frameBody, List.mem_cons] at he
  rcases he with rfl | he
  · simp [isAttHigh]
  · exact byteEvents_noAttHigh _ _ _ _ _ _ e he

theorem attLine_cases (g : GPSX) (pad : Nat) :
    attLine g pad = Line.AT1 ∨ attLine g pad = Line.AT2 := by
  unfold attLine
  split <;> simp

theorem transactionsAux_frameEvents (g : GPSX) (pad : Nat) (msg : List Nat) (d : Nat → Bool)
    (rest : List Event) :
    transactionsAux none (frameEvents g pad msg d ++ rest)
      = frameBody g msg d :: transactionsAux none rest := by
  have hlow : isAttLow (Event.low (attLine g pad)) = true := by
    rcases attLine_cases g pad with h | h <;> simp [h, isAttLow]
  have hhigh : isAttHigh (Event.high (attLine g pad)) = true := by
    rcases attLine_cases g pad with h | h <;> simp [h, isAttHigh]
  have hsleep : isAttLow (Event.sleep g.commandInterval) = false := by simp [isAttLow]
  rw [frameEvents, List.cons_append, List.cons_append, transactionsAux_none_cons, if_pos hlow,
    List.append_assoc,
    transactionsAux_append _ _ _ (frameBody_noAttHigh g msg d), List.nil_append,
    List.cons_append, transactionsAux_some_cons, if_pos hhigh, List.cons_append,
    transactionsAux_none_cons, hsleep]
  simp

theorem bytesOf_cmdBits_frameBody (g : GPSX) (msg : List Nat) (d : Nat → Bool) :
    bytesOf (cmdBits false (frameBody g msg d)) = sentBytes msg 9 0 := by
  rw [frameBody, cmdBits_sleep, bytesOf_cmdBits_byteEvents]

theorem bytesOf_datBits_frameBody (g : GPSX) (msg : List Nat) (d : Nat → Bool) :
    bytesOf (datBits (frameBody g msg d)) = recvBytes d 9 0 := by
  have h := bytesOf_datBits_byteEvents g.clkHalfCycle g.ackWaitDuration msg 9 0 0 d
  simp only [Nat.mul_zero, Nat.add_zero] at h
  rw [frameBody, datBits_sleep, h]

/-! ## UpdateState -/

theorem updateCopyLoop_frame (pad n i : Nat) (g : GPSX) :
    updateCopyLoop pad n i g = { g with keyState := (updateCopyLoop pad n i g).keyState } := by
  induction n generalizing i g with
  | zero => simp [updateCopyLoop]
  | succ n ih =>
    rw [updateCopyLoop, ih]

theorem updateCopyLoop_keyState (pad n i : Nat) (g : GPSX) (q s j : Nat) :
    (updateCopyLoop pad n i g).keyState q s j
      = if q = pad ∧ s = stateCurrent ∧ i ≤ j ∧ j < i + n then g.padState j
        else g.keyState q s j := by
  induction n generalizing i g with
  | zero =>
    have : ¬ (q = pad ∧ s = stateCurrent ∧ i ≤ j ∧ j < i) := by omega
    simp [updateCopyLoop, this]
  | succ n ih =>
    rw [updateCopyLoop, ih]
    simp only [setAt_apply]
    by_cases hq : q = pad
    · by_cases hs : s = stateCurrent
      · by_cases hj : j = i
        · subst hj
          have h1 : ¬ (j + 1 ≤ j ∧ j < j + 1 + n) := by omega
          have h2 : j ≤ j ∧ j < j + (n + 1) := by omega
          simp [hq, hs, h1, h2]
        · by_cases h1 : i + 1 ≤ j ∧ j < i + 1 + n
          · have h2 : i ≤ j ∧ j < i + (n + 1) := by omega
            simp [hq, hs, h1, h2]
          · have h2 : ¬ (i ≤ j ∧ j < i + (n + 1)) := by omega
            simp [hq, hs, hj, h1, h2]
      · simp [hq, hs]
    · simp [hq]

theorem updateCopyLoop_keyState_fun (pad n i : Nat) (g : GPSX) :
    (updateCopyLoop pad n i g).keyState
      = fun q s j => if q = pad ∧ s = stateCurrent ∧ i ≤ j ∧ j < i + n then g.padState j
        else g.keyState q s j := by
  funext q s j
  exact updateCopyLoop_keyState pad n i g q s j

theorem sendCommand_padState_fun (g : GPSX) (w : Wire) (pad : Nat) (msg : List Nat) :
    (g.sendCommand w pad msg).1.padState
      = fun j => if j < 9 then response w.dat j else g.padState j := by
  funext j
  exact sendCommand_padState g w pad msg j

theorem frameEvents_congr (g g1 : GPSX) (pad : Nat) (msg : List Nat) (d : Nat → Bool)
    (h1 : g1.pins = g.pins) (h2 : g1.waitAfterATT = g.waitAfterATT)
    (h3 : g1.commandInterval = g.commandInterval) (h4 : g1.clkHalfCycle = g.clkHalfCycle)
    (h5 : g1.ackWaitDuration = g.ackWaitDuration) :
    frameEvents g1 pad msg d = frameEvents g pad msg d := by
  simp [frameEvents, frameBody, attLine, h1, h2, h3, h4, h5]

theorem updateState_spec (g : GPSX) (w : Wire) (pad : Nat) (h : pad < 2) :
    ∃ g' w', g.UpdateState w pad = some (g', w') ∧
      w'.trace = w.trace ++ frameEvents g pad (pollCmd g pad) w.dat ∧
      w'.dat = (fun k => w.dat (k + 72)) ∧
      (∀ q s j, g'.keyState q s j =
        if q = pad ∧ s = stateCurrent then
          (if j < 9 then response w.dat j else g.keyState pad stateCurrent j)
        else if q = pad ∧ s = statePrevious then
          (if j = 3 ∨ j = 4 then g.keyState pad stateCurrent j ^^^ response w.dat j
           else g.keyState pad stateCurrent j)
        else g.keyState q s j) ∧
      (∀ j, g'.padState j = if j < 9 then response w.dat j else g.padState j) ∧
      g'.motor1Level = g.motor1Level ∧ g'.motor2Level = g.motor2Level ∧
      g'.pins = g.pins ∧ g'.psxType = g.psxType ∧
      g'.waitAfterATT = g.waitAfterATT ∧ g'.commandInterval = g.commandInterval ∧
      g'.clkHalfCycle = g.clkHalfCycle ∧ g'.ackWaitDuration = g.ackWaitDuration := by
  rw [GPSX.UpdateState, if_pos h]
  refine ⟨_, _, rfl, ?_, ?_, ?_, ?_, ?_, ?_, ?_, ?_, ?_, ?_, ?_, ?_⟩
  · simp only [sendCommand_trace]
    rw [frameEvents_congr g _ pad _ _ rfl rfl rfl rfl rfl]
    rfl
  · simp only [sendCommand_dat]
  · intro q s j
    rw [sendCommand_frame]
    simp only [updateCopyLoop_keyState_fun, setAt_apply, sendCommand_padState_fun]
    by_cases hq : q = pad
    · by_cases hs : s = stateCurrent
      · subst hq hs
        by_cases hj : j < 9 <;> simp [hj]
      · by_cases hs1 : s = statePrevious
        · subst hq hs1
          by_cases h3 : j = 3
          · subst h3
            simp
          · by_cases h4 : j = 4
            · subst h4
              simp
            · simp [h3, h4]
        · simp [hq, hs, hs1]
    · simp [hq]
  · intro j
    rw [updateCopyLoop_frame]
    simp only [sendCommand_padState]
  · rw [updateCopyLoop_frame, sendCommand_frame]
  · rw [updateCopyLoop_frame, sendCommand_frame]
  · rw [updateCopyLoop_frame, sendCommand_frame]
  · rw [updateCopyLoop_frame, sendCommand_frame]
  · rw [updateCopyLoop_frame, sendCommand_frame]
  · rw [updateCopyLoop_frame, sendCommand_frame]
  · rw [updateCopyLoop_frame, sendCommand_frame]
  · rw [updateCopyLoop_frame, sendCommand_frame]

theorem pollResponse_eq (g : GPSX) (w : Wire) (pad i : Nat) :
    pollResponse g w pad i = if i < 9 then response w.dat i else g.padState i := by
  rw [pollResponse, sendCommand_padState]

theorem pad_lt_two (pad : Nat) (hpad : pad = Pad1 ∨ pad = Pad2) : pad < 2 := by
  rcases hpad with h | h <;> simp [h]

theorem catalogue_byteIndex (d : Button) (hd : d ∈ catalogue) :
    d.byteIndex = 3 ∨ d.byteIndex = 4 := by
  simp only [catalogue, List.mem_cons, List.mem_singleton, List.not_mem_nil, or_false] at hd
  rcases hd with h | h | h | h | h | h | h | h | h | h | h | h | h | h | h | h <;>
    subst h <;> decide

theorem xor_and_of_set_clear (a b m : Nat) (ha : a &&& m ≠ 0) (hb : b &&& m = 0) :
    (a ^^^ b) &&& m ≠ 0 := by
  rw [Nat.and_xor_distrib_right, hb, Nat.xor_zero]
  exact ha

theorem xor_and_of_clear_set (a b m : Nat) (ha : a &&& m = 0) (hb : b &&& m ≠ 0) :
    (a ^^^ b) &&& m ≠ 0 := by
  rw [Nat.and_xor_distrib_right, ha, Nat.zero_xor]
  exact hb

theorem xor_and_of_same (a b m : Nat) (h : a &&& m = b &&& m) : (a ^^^ b) &&& m = 0 := by
  rw [Nat.and_xor_distrib_right, h, Nat.xor_self]

/-- The state bytes of a catalogued button after `UpdateState(pad)`. -/
theorem updateState_button (g : GPSX) (w : Wire) (pad : Nat) (h : pad < 2) :
    ∃ g' w', g.UpdateState w pad = some (g', w') ∧
      (∀ i, i < 9 → g'.keyState pad stateCurrent i = pollResponse g w pad i) ∧
      (∀ i, 9 ≤ i → g'.keyState pad stateCurrent i = g.keyState pad stateCurrent i) ∧
      (∀ i, i = 3 ∨ i = 4 → g'.keyState pad statePrevious i
        = g.keyState pad stateCurrent i ^^^ pollResponse g w pad i) ∧
      (∀ i, i ≠ 3 → i ≠ 4 → g'.keyState pad statePrevious i = g.keyState pad stateCurrent i) := by
  obtain ⟨g', w', hu, _, _, hk, _⟩ := updateState_spec g w pad h
  refine ⟨g', w', hu, ?_, ?_, ?_, ?_⟩
  · intro i hi
    rw [hk, pollResponse_eq]
    simp [hi]
  · intro i hi
    have : ¬ i < 9 := by omega
    rw [hk]
    simp [this]
  · intro i hi
    have h9 : i < 9 := by omega
    rw [hk, pollResponse_eq]
    simp [hi, h9]
  · intro i h3 h4
    rw [hk]
    simp [h3, h4]

/-! ## Claims on polling and edge detection -/

/-- C1: for a pad in {Pad1, Pad2} and any prior session state, `UpdateState(pad)` returns and,
with `r` the response its poll transaction stored in `padState`: `current[i] = r[i]` for `i` in
0..8, `previous[3]` and `previous[4]` are the old current bytes XOR `r[3]` and `r[4]`, and
`previous[i]` is the old `current[i]` at every other index. -/
theorem C1_updateState_buffers (g : GPSX) (w : Wire) (pad : Nat)
    (hpad : pad = Pad1 ∨ pad = Pad2) :
    ∃ g' w', g.UpdateState w pad = some (g', w') ∧
      (∀ i, i < 9 → g'.padState i = pollResponse g w pad i) ∧
      (∀ i, i < 9 → g'.keyState pad stateCurrent i = pollResponse g w pad i) ∧
      g'.keyState pad statePrevious 3
        = g.keyState pad stateCurrent 3 ^^^ pollResponse g w pad 3 ∧
      g'.keyState pad statePrevious 4
        = g.keyState pad stateCurrent 4 ^^^ pollResponse g w pad 4 ∧
      (∀ i, i ≠ 3 → i ≠ 4 →
        g'.keyState pad statePrevious i = g.keyState pad stateCurrent i) := by
  have h := pad_lt_two pad hpad
  obtain ⟨g', w', hu, _, _, hk, hp, _⟩ := updateState_spec g w pad h
  refine ⟨g', w', hu, ?_, ?_, ?_, ?_, ?_⟩
  · intro i hi
    rw [hp, pollResponse_eq]
  · intro i hi
    rw [hk, pollResponse_eq]
    simp [hi]
  · rw [hk, pollResponse_eq]
    simp
  · rw [hk, pollResponse_eq]
    simp
  · intro i h3 h4
    rw [hk]
    simp [h3, h4]

/-- C1 at a concrete input: an idle session polled on a wire whose byte 3 shows `0x7F`. -/
theorem C1_updateState_buffers_witness :
    ∃ g' w', idleSession.UpdateState (freshWire (highExcept [31])) Pad1 = some (g', w') ∧
      g'.keyState Pad1 stateCurrent 3 = 0x7F ∧
      g'.keyState Pad1 statePrevious 3 = 0x80 ∧
      g'.keyState Pad1 statePrevious 4 = 0x00 ∧
      g'.keyState Pad1 statePrevious 5 = 0xFF := by
  obtain ⟨g', w', hu, _, hc, h3, h4, ho⟩ :=
    C1_updateState_buffers idleSession (freshWire (highExcept [31])) Pad1 (Or.inl rfl)
  refine ⟨g', w', hu, ?_, ?_, ?_, ?_⟩
  · rw [hc 3 (by decide)]
    decide
  · rw [h3]
    decide
  · rw [h4]
    decide
  · rw [ho 5 (by decide) (by decide)]
    decide

/-- C2: for a catalogued button `d` and a pad in {Pad1, Pad2}: if `d`'s bit is set in the raw
mask byte the session holds (what the previous `UpdateState(pad)` left in `current`) and clear in
the response of the next `UpdateState(pad)`, then right after that poll `Pressed` is true and
`Released` is false; if it was clear and is now set, `Pressed` is false and `Released` is true. -/
theorem C2_pressed_released_edges (g : GPSX) (w : Wire) (pad : Nat) (d : Button)
    (hpad : pad = Pad1 ∨ pad = Pad2) (hd : d ∈ catalogue) :
    ∃ g' w', g.UpdateState w pad = some (g', w') ∧
      (g.keyState pad stateCurrent d.byteIndex &&& d.bitMask ≠ 0 →
        pollResponse g w pad d.byteIndex &&& d.bitMask = 0 →
        g'.Pressed pad d = some true ∧ g'.Released pad d = some false) ∧
      (g.keyState pad stateCurrent d.byteIndex &&& d.bitMask = 0 →
        pollResponse g w pad d.byteIndex &&& d.bitMask ≠ 0 →
        g'.Pressed pad d = some false ∧ g'.Released pad d = some true) := by
  have h := pad_lt_two pad hpad
  have hidx := catalogue_byteIndex d hd
  have h9 : d.byteIndex < 9 := by omega
  have h20 : pad < 2 ∧ d.byteIndex < PadBufferSize := ⟨h, by simp only [PadBufferSize]; omega⟩
  obtain ⟨g', w', hu, hc, _, hp, _⟩ := updateState_button g w pad h
  refine ⟨g', w', hu, ?_, ?_⟩
  · intro hset hclr
    have hx := xor_and_of_set_clear _ _ _ hset hclr
    simp only [GPSX.Pressed, GPSX.Released, if_pos h20, hc _ h9, hp _ hidx]
    simp [hx, hclr]
  · intro hclr hset
    have hx := xor_and_of_clear_set _ _ _ hclr hset
    simp only [GPSX.Pressed, GPSX.Released, if_pos h20, hc _ h9, hp _ hidx]
    simp [hx, hset]

/-- C2 at concrete inputs: Left goes down on an idle session, and Left is let go on a fresh
session (whose zeroed buffers read as held). -/
theorem C2_pressed_released_edges_witness :
    (∃ g' w', idleSession.UpdateState (freshWire (highExcept [31])) Pad1 = some (g', w') ∧
      g'.Pressed Pad1 ButtonLeft = some true ∧ g'.Released Pad1 ButtonLeft = some false) ∧
    (∃ g' w', (New PS2 examplePins (freshWire (highExcept []))).1.UpdateState
        (freshWire (highExcept [])) Pad2 = some (g', w') ∧
      g'.Pressed Pad2 ButtonLeft = some false ∧ g'.Released Pad2 ButtonLeft = some true) := by
  constructor
  · obtain ⟨g', w', hu, h1, _⟩ := C2_pressed_released_edges idleSession
      (freshWire (highExcept [31])) Pad1 ButtonLeft (Or.inl rfl) (by decide)
    exact ⟨g', w', hu, h1 (by decide) (by decide)⟩
  · obtain ⟨g', w', hu, _, h2⟩ := C2_pressed_released_edges
      (New PS2 examplePins (freshWire (highExcept []))).1
      (freshWire (highExcept [])) Pad2 ButtonLeft (Or.inr rfl) (by decide)
    exact ⟨g', w', hu, h2 (by decide) (by decide)⟩

/-- The wire after `UpdateState(pad)` shows the data stream 72 samples further on. -/
theorem updateState_dat (g g' : GPSX) (w w' : Wire) (pad : Nat)
    (hu : g.UpdateState w pad = some (g', w')) : w'.dat = fun k => w.dat (k + 72) := by
  have h : pad < 2 := by
    by_contra hn
    simp [GPSX.UpdateState, hn] at hu
  obtain ⟨g1, w1, hu1, _, hd, _⟩ := updateState_spec g w pad h
  rw [hu] at hu1
  cases hu1
  exact hd

/-- C3: `Pressed` and `Released` are single-cycle edges.  For a catalogued button `d` and a pad in
{Pad1, Pad2}, three consecutive `UpdateState(pad)` calls return; if `d`'s bit has the same value
in the responses of the first two, both `Pressed` and `Released` are false after the second,
whatever the session was before; and byte-3 responses `0xFF`, `0x7F`, `0x7F` give
`Pressed(ButtonLeft)` after the second poll and, after the third, `Pressed(ButtonLeft)` false
with `IsDown(ButtonLeft)` true. -/
theorem C3_single_cycle_edges (g0 : GPSX) (w0 : Wire) (pad : Nat)
    (hpad : pad = Pad1 ∨ pad = Pad2) :
    ∃ g1 w1 g2 w2 g3 w3,
      g0.UpdateState w0 pad = some (g1, w1) ∧
      g1.UpdateState w1 pad = some (g2, w2) ∧
      g2.UpdateState w2 pad = some (g3, w3) ∧
      (∀ d, d ∈ catalogue →
        pollResponse g0 w0 pad d.byteIndex &&& d.bitMask
          = pollResponse g1 w1 pad d.byteIndex &&& d.bitMask →
        g2.Pressed pad d = some false ∧ g2.Released pad d = some false) ∧
      (pollResponse g0 w0 pad 3 = 0xFF → pollResponse g1 w1 pad 3 = 0x7F →
        pollResponse g2 w2 pad 3 = 0x7F →
        g2.Pressed pad ButtonLeft = some true ∧
        g3.Pressed pad ButtonLeft = some false ∧
        g3.IsDown pad ButtonLeft = some true) := by
  have h := pad_lt_two pad hpad
  obtain ⟨g1, w1, hu1, hc1, _, _, _⟩ := updateState_button g0 w0 pad h
  obtain ⟨g2, w2, hu2, hc2, _, hp2, _⟩ := updateState_button g1 w1 pad h
  obtain ⟨g3, w3, hu3, hc3, _, hp3, _⟩ := updateState_button g2 w2 pad h
  refine ⟨g1, w1, g2, w2, g3, w3, hu1, hu2, hu3, ?_, ?_⟩
  · intro d hd hsame
    have hidx := catalogue_byteIndex d hd
    have h9 : d.byteIndex < 9 := by omega
    have h20 : pad < 2 ∧ d.byteIndex < PadBufferSize :=
      ⟨h, by simp only [PadBufferSize]; omega⟩
    have hx := xor_and_of_same _ _ _ hsame
    simp only [GPSX.Pressed, GPSX.Released, if_pos h20, hc2 _ h9, hp2 _ hidx, hc1 _ h9]
    simp [hx]
  · intro h1 h2 h3
    have h20 : pad < 2 ∧ ButtonLeft.byteIndex < PadBufferSize := ⟨h, by decide⟩
    have e2 : g2.keyState pad stateCurrent 3 = 0x7F := by rw [hc2 3 (by decide), h2]
    have e2p : g2.keyState pad statePrevious 3 = 0x80 := by
      rw [hp2 3 (Or.inl rfl), hc1 3 (by decide), h1, h2]
      decide
    have e3 : g3.keyState pad stateCurrent 3 = 0x7F := by rw [hc3 3 (by decide), h3]
    have e3p : g3.keyState pad statePrevious 3 = 0x00 := by
      rw [hp3 3 (Or.inl rfl), e2, h3]
      decide
    simp only [GPSX.Pressed, GPSX.IsDown, if_pos h20]
    simp only [ButtonLeft, e2, e2p, e3, e3p]
    decide

/-- C3 at a concrete input: a new session whose first three polls answer `0xFF`, `0x7F`, `0x7F`
in byte 3 (sample 31 of the second and of the third poll is low). -/
theorem C3_single_cycle_edges_witness :
    ∃ g1 w1 g2 w2 g3 w3,
      (New PS2 examplePins (freshWire (highExcept [103, 175]))).1.UpdateState
        (New PS2 examplePins (freshWire (highExcept [103, 175]))).2 Pad1 = some (g1, w1) ∧
      g1.UpdateState w1 Pad1 = some (g2, w2) ∧
      g2.UpdateState w2 Pad1 = some (g3, w3) ∧
      g2.Pressed Pad1 ButtonLeft = some true ∧
      g3.Pressed Pad1 ButtonLeft = some false ∧
      g3.IsDown Pad1 ButtonLeft = some true := by
  obtain ⟨g1, w1, g2, w2, g3, w3, hu1, hu2, hu3, hsame, hscen⟩ :=
    C3_single_cycle_edges (New PS2 examplePins (freshWire (highExcept [103, 175]))).1
      (New PS2 examplePins (freshWire (highExcept [103, 175]))).2 Pad1 (Or.inl rfl)
  have hd1 := updateState_dat _ _ _ _ _ hu1
  have hd2 := updateState_dat _ _ _ _ _ hu2
  have r1 : pollResponse (New PS2 examplePins (freshWire (highExcept [103, 175]))).1
      (New PS2 examplePins (freshWire (highExcept [103, 175]))).2 Pad1 3 = 0xFF := by
    decide
  have r2 : pollResponse g1 w1 Pad1 3 = 0x7F := by
    rw [pollResponse_eq, hd1, if_pos (by decide)]
    decide
  have r3 : pollResponse g2 w2 Pad1 3 = 0x7F := by
    rw [pollResponse_eq, hd2, hd1, if_pos (by decide)]
    decide
  obtain ⟨p2, p3, d3⟩ := hscen r1 r2 r3
  exact ⟨g1, w1, g2, w2, g3, w3, hu1, hu2, hu3, p2, p3, d3⟩

/-- C4: for a pad in {Pad1, Pad2}, `UpdateState(pad)` returns and afterwards, for every
catalogued button `d`, `IsDown(pad, d)` is true exactly when the response byte `r[d.byteIndex]`
has `d`'s bit clear (active low); in particular a poll whose byte 3 is `0xFF` makes `IsDown`
false for all eight byte-3 buttons, whatever the buffers held before (zeroed ones included). -/
theorem C4_isDown_active_low (g : GPSX) (w : Wire) (pad : Nat)
    (hpad : pad = Pad1 ∨ pad = Pad2) :
    ∃ g' w', g.UpdateState w pad = some (g', w') ∧
      (∀ d, d ∈ catalogue →
        g'.IsDown pad d
          = some (decide (pollResponse g w pad d.byteIndex &&& d.bitMask = 0))) ∧
      (pollResponse g w pad 3 = 0xFF →
        ∀ d, d ∈ catalogue → d.byteIndex = 3 → g'.IsDown pad d = some false) := by
  have h := pad_lt_two pad hpad
  obtain ⟨g', w', hu, hc, _, _, _⟩ := updateState_button g w pad h
  have key : ∀ d, d ∈ catalogue →
      g'.IsDown pad d
        = some (decide (pollResponse g w pad d.byteIndex &&& d.bitMask = 0)) := by
    intro d hd
    have hidx := catalogue_byteIndex d hd
    have h9 : d.byteIndex < 9 := by omega
    have h20 : pad < 2 ∧ d.byteIndex < PadBufferSize :=
      ⟨h, by simp only [PadBufferSize]; omega⟩
    simp only [GPSX.IsDown, if_pos h20, hc _ h9]
  refine ⟨g', w', hu, key, ?_⟩
  intro hff d hd h3
  rw [key d hd, h3, hff]
  simp only [catalogue, List.mem_cons, List.mem_singleton, List.not_mem_nil, or_false] at hd
  rcases hd with e | e | e | e | e | e | e | e | e | e | e | e | e | e | e | e <;>
    subst e <;> rfl

/-- C4 at a concrete input: the first poll of a new session (zeroed buffers) on a data line that
stays high. -/
theorem C4_isDown_active_low_witness :
    ∃ g' w', (New PS2 examplePins (freshWire (highExcept []))).1.UpdateState
        (New PS2 examplePins (freshWire (highExcept []))).2 Pad1 = some (g', w') ∧
      g'.IsDown Pad1 ButtonCross = some false ∧
      (∀ d, d ∈ catalogue → d.byteIndex = 3 → g'.IsDown Pad1 d = some false) := by
  obtain ⟨g', w', hu, hall, h3⟩ :=
    C4_isDown_active_low (New PS2 examplePins (freshWire (highExcept []))).1
      (New PS2 examplePins (freshWire (highExcept []))).2 Pad1 (Or.inl rfl)
  refine ⟨g', w', hu, ?_, h3 (by decide)⟩
  rw [hall ButtonCross (by decide)]
  decide

/-! ## What a transaction clocks out -/

theorem clockedOut_frameEvents_append (g : GPSX) (pad : Nat) (msg : List Nat) (d : Nat → Bool)
    (rest : List Event) :
    clockedOut (frameEvents g pad msg d ++ rest) = sentBytes msg 9 0 :: clockedOut rest := by
  simp only [clockedOut, transactions, transactionsAux_frameEvents, List.map_cons,
    bytesOf_cmdBits_frameBody]

theorem clockedIn_frameEvents_append (g : GPSX) (pad : Nat) (msg : List Nat) (d : Nat → Bool)
    (rest : List Event) :
    clockedIn (frameEvents g pad msg d ++ rest) = recvBytes d 9 0 :: clockedIn rest := by
  simp only [clockedIn, transactions, transactionsAux_frameEvents, List.map_cons,
    bytesOf_datBits_frameBody]

theorem clockedOut_nil : clockedOut [] = [] := rfl

theorem clockedIn_nil : clockedIn [] = [] := rfl

theorem clockedOut_frameEvents (g : GPSX) (pad : Nat) (msg : List Nat) (d : Nat → Bool) :
    clockedOut (frameEvents g pad msg d) = [sentBytes msg 9 0] := by
  have h := clockedOut_frameEvents_append g pad msg d []
  rwa [List.append_nil, clockedOut_nil] at h

theorem clockedIn_frameEvents (g : GPSX) (pad : Nat) (msg : List Nat) (d : Nat → Bool) :
    clockedIn (frameEvents g pad msg d) = [recvBytes d 9 0] := by
  have h := clockedIn_frameEvents_append g pad msg d []
  rwa [List.append_nil, clockedIn_nil] at h

theorem updateState_clockedOut (g : GPSX) (w : Wire) (pad : Nat) (h : pad < 2) :
    ∃ g' w', g.UpdateState w pad = some (g', w') ∧
      g'.motor1Level = g.motor1Level ∧ g'.motor2Level = g.motor2Level ∧
      clockedOut (newEvents w w')
        = [[0x01, 0x42, 0x00, g.motor1Level pad % 256, g.motor2Level pad % 256,
            0x00, 0x00, 0x00, 0x00]] := by
  obtain ⟨g', w', hu, ht, _, _, _, hm1, hm2, _⟩ := updateState_spec g w pad h
  refine ⟨g', w', hu, hm1, hm2, ?_⟩
  rw [newEvents_of_trace _ _ _ ht, clockedOut_frameEvents]
  simp [sentBytes, cmdAt, pollCmd]

theorem frameEvents_sendCommand (g : GPSX) (w : Wire) (pad q : Nat) (msg m : List Nat)
    (d : Nat → Bool) :
    frameEvents (g.sendCommand w pad msg).1 q m d = frameEvents g q m d := by
  apply frameEvents_congr <;> rw [sendCommand_frame]

/-- Three transactions in a row, as `Mode` and `MotorEnable` run them. -/
theorem three_sendCommand (g : GPSX) (w : Wire) (pad : Nat) (m1 m2 m3 : List Nat) :
    (((g.sendCommand w pad m1).1.sendCommand (g.sendCommand w pad m1).2 pad m2).1.sendCommand
        ((g.sendCommand w pad m1).1.sendCommand (g.sendCommand w pad m1).2 pad m2).2 pad m3).2.trace
      = w.trace ++ (frameEvents g pad m1 w.dat
          ++ (frameEvents g pad m2 (fun k => w.dat (k + 72))
            ++ frameEvents g pad m3 (fun k => w.dat (k + 72 + 72)))) := by
  simp only [sendCommand_trace, sendCommand_dat, frameEvents_sendCommand, List.append_assoc]

theorem three_sendCommand_frame (g : GPSX) (w : Wire) (pad : Nat) (m1 m2 m3 : List Nat) :
    (((g.sendCommand w pad m1).1.sendCommand (g.sendCommand w pad m1).2 pad m2).1.sendCommand
        ((g.sendCommand w pad m1).1.sendCommand (g.sendCommand w pad m1).2 pad m2).2 pad m3).1
      = { g with padState :=
          (((g.sendCommand w pad m1).1.sendCommand (g.sendCommand w pad m1).2 pad m2).1.sendCommand
            ((g.sendCommand w pad m1).1.sendCommand (g.sendCommand w pad m1).2 pad m2).2
              pad m3).1.padState } := by
  rw [sendCommand_frame, sendCommand_frame (g.sendCommand w pad m1).1, sendCommand_frame g]

theorem three_clockedOut (g : GPSX) (pad : Nat) (m1 m2 m3 : List Nat) (d1 d2 d3 : Nat → Bool) :
    clockedOut (frameEvents g pad m1 d1 ++ (frameEvents g pad m2 d2 ++ frameEvents g pad m3 d3))
      = [sentBytes m1 9 0, sentBytes m2 9 0, sentBytes m3 9 0] := by
  rw [clockedOut_frameEvents_append, clockedOut_frameEvents_append, clockedOut_frameEvents]

theorem mode_trace (g : GPSX) (w : Wire) (pad mode lock : Nat) :
    (g.Mode w pad mode lock).2.trace
      = w.trace ++ (frameEvents g pad [0x01, 0x43, 0x00, 0x01] w.dat
          ++ (frameEvents g pad [0x01, 0x44, 0x00, mode, lock, 0x00, 0x00, 0x00, 0x00]
                (fun k => w.dat (k + 72))
            ++ frameEvents g pad [0x01, 0x43, 0x00, 0x00, 0x5A, 0x5A, 0x5A, 0x5A, 0x5A]
                (fun k => w.dat (k + 72 + 72)))) :=
  three_sendCommand g w pad _ _ _

theorem motorEnable_trace (g : GPSX) (w : Wire) (pad e1 e2 : Nat) :
    (g.MotorEnable w pad e1 e2).2.trace
      = w.trace ++ (frameEvents g pad [0x01, 0x43, 0x00, 0x01] w.dat
          ++ (frameEvents g pad [0x01, 0x4D, 0x00, e1, e2, 0xFF, 0xFF, 0xFF, 0xFF]
                (fun k => w.dat (k + 72))
            ++ frameEvents g pad [0x01, 0x43, 0x00, 0x00, 0x5A, 0x5A, 0x5A, 0x5A, 0x5A]
                (fun k => w.dat (k + 72 + 72)))) :=
  three_sendCommand g w pad _ _ _

theorem mode_clockedOut (g : GPSX) (w : Wire) (pad mode lock : Nat) :
    clockedOut (newEvents w (g.Mode w pad mode lock).2)
      = [[0x01, 0x43, 0x00, 0x01, 0x00, 0x00, 0x00, 0x00, 0x00],
         [0x01, 0x44, 0x00, mode % 256, lock % 256, 0x00, 0x00, 0x00, 0x00],
         [0x01, 0x43, 0x00, 0x00, 0x5A, 0x5A, 0x5A, 0x5A, 0x5A]] := by
  rw [newEvents_of_trace _ _ _ (mode_trace g w pad mode lock), three_clockedOut]
  simp [sentBytes, cmdAt]

theorem motorEnable_clockedOut (g : GPSX) (w : Wire) (pad e1 e2 : Nat) :
    clockedOut (newEvents w (g.MotorEnable w pad e1 e2).2)
      = [[0x01, 0x43, 0x00, 0x01, 0x00, 0x00, 0x00, 0x00, 0x00],
         [0x01, 0x4D, 0x00, e1 % 256, e2 % 256, 0xFF, 0xFF, 0xFF, 0xFF],
         [0x01, 0x43, 0x00, 0x00, 0x5A, 0x5A, 0x5A, 0x5A, 0x5A]] := by
  rw [newEvents_of_trace _ _ _ (motorEnable_trace g w pad e1 e2), three_clockedOut]
  simp [sentBytes, cmdAt]

theorem mode_frame (g : GPSX) (w : Wire) (pad mode lock : Nat) :
    (g.Mode w pad mode lock).1
      = { g with padState := (g.Mode w pad mode lock).1.padState } :=
  three_sendCommand_frame g w pad _ _ _

theorem motorEnable_frame (g : GPSX) (w : Wire) (pad e1 e2 : Nat) :
    (g.MotorEnable w pad e1 e2).1
      = { g with padState := (g.MotorEnable w pad e1 e2).1.padState } :=
  three_sendCommand_frame g w pad _ _ _

/-! ## Motor levels along a sequence of calls -/

theorem step_motor_levels (s : GPSX × Wire) (c : Call) (hc : c.valid = true) :
    ∃ s', step s c = some s' ∧
      ∀ p, (s'.1.motor1Level p, s'.1.motor2Level p)
        = lastMotorFrom p (s.1.motor1Level p, s.1.motor2Level p) [c] := by
  cases c with
  | updateState pad =>
    have h : pad < 2 := pad_lt_two pad (by simpa [Call.valid] using hc)
    obtain ⟨g', w', hu, _, _, _, _, hm1, hm2, _⟩ := updateState_spec s.1 s.2 pad h
    exact ⟨(g', w'), hu, fun p => by simp [lastMotorFrom, hm1, hm2]⟩
  | motor pad m1 m2 =>
    have hv : (pad = Pad1 ∨ pad = Pad2) ∧ m1 < 256 ∧ m2 < 256 := by
      simpa [Call.valid] using hc
    have h : pad < 2 := pad_lt_two pad hv.1
    refine ⟨_, by simp only [step, GPSX.Motor, if_pos h]; rfl, fun p => ?_⟩
    by_cases hp : pad = p
    · subst hp
      simp [lastMotorFrom]
    · have hp2 : ¬ p = pad := fun e => hp e.symm
      simp [lastMotorFrom, hp, hp2]
  | motorEnable pad e1 e2 =>
    refine ⟨_, rfl, fun p => ?_⟩
    rw [motorEnable_frame]
    simp [lastMotorFrom]
  | mode pad m l =>
    refine ⟨_, rfl, fun p => ?_⟩
    rw [mode_frame]
    simp [lastMotorFrom]

theorem lastMotorFrom_cons (p : Nat) (cur : Nat × Nat) (c : Call) (cs : List Call) :
    lastMotorFrom p cur (c :: cs) = lastMotorFrom p (lastMotorFrom p cur [c]) cs := by
  cases c with
  | motor q m1 m2 =>
    by_cases h : q = p <;> simp [lastMotorFrom, h]
  | updateState q => simp [lastMotorFrom]
  | motorEnable q e1 e2 => simp [lastMotorFrom]
  | mode q m l => simp [lastMotorFrom]

theorem run_motor_levels (cs : List Call) (s : GPSX × Wire)
    (hv : ∀ c ∈ cs, c.valid = true) :
    ∃ s', run s cs = some s' ∧
      ∀ p, (s'.1.motor1Level p, s'.1.motor2Level p)
        = lastMotorFrom p (s.1.motor1Level p, s.1.motor2Level p) cs := by
  induction cs generalizing s with
  | nil => exact ⟨s, rfl, fun p => rfl⟩
  | cons c cs ih =>
    obtain ⟨s1, h1, hm1⟩ := step_motor_levels s c (hv c (List.mem_cons_self _ _))
    obtain ⟨s2, h2, hm2⟩ := ih s1 (fun x hx => hv x (List.mem_cons_of_mem _ hx))
    refine ⟨s2, by simp [run, h1, h2], fun p => ?_⟩
    rw [hm2 p, hm1 p, ← lastMotorFrom_cons]

theorem lastMotorFrom_lt (p : Nat) (cs : List Call) (cur : Nat × Nat)
    (hcur : cur.1 < 256 ∧ cur.2 < 256) (hv : ∀ c ∈ cs, c.valid = true) :
    (lastMotorFrom p cur cs).1 < 256 ∧ (lastMotorFrom p cur cs).2 < 256 := by
  induction cs generalizing cur with
  | nil => exact hcur
  | cons c cs ih =>
    have hc := hv c (List.mem_cons_self _ _)
    have hcs : ∀ x ∈ cs, x.valid = true := fun x hx => hv x (List.mem_cons_of_mem _ hx)
    cases c with
    | motor q m1 m2 =>
      have hb : (q = Pad1 ∨ q = Pad2) ∧ m1 < 256 ∧ m2 < 256 := by simpa [Call.valid] using hc
      by_cases h : q = p
      · simp only [lastMotorFrom, if_pos h]
        exact ih (m1, m2) hb.2 hcs
      · simp only [lastMotorFrom, if_neg h]
        exact ih cur hcur hcs
    | updateState q => exact ih cur hcur hcs
    | motorEnable q e1 e2 => exact ih cur hcur hcs
    | mode q m l => exact ih cur hcur hcs

theorem new_motor_levels (psxType : Nat) (pins : PinConfig) (w : Wire) (p : Nat) :
    (New psxType pins w).1.motor1Level p = 0x00 ∧ (New psxType pins w).1.motor2Level p = 0x00 := by
  exact ⟨rfl, rfl⟩

/-! ## Claims on the command vocabulary -/

/-- C5: after `New` and any sequence of valid calls, `UpdateState(pad)` for a pad in
{Pad1, Pad2} performs one transaction whose nine clocked-out bytes are
`01 42 00 m1 m2 00 00 00 00`, where `(m1, m2)` are the arguments of the most recent
`Motor(pad, m1, m2)` call for that pad in the sequence, or `(0x00, 0x00)` when there is none;
calls for the other pad play no part. -/
theorem C5_poll_command_bytes (psxType : Nat) (pins : PinConfig) (w0 : Wire)
    (calls : List Call) (pad : Nat) (hpad : pad = Pad1 ∨ pad = Pad2)
    (hvalid : ∀ c ∈ calls, c.valid = true) :
    ∃ g w g' w', run (New psxType pins w0) calls = some (g, w) ∧
      g.UpdateState w pad = some (g', w') ∧
      clockedOut (newEvents w w')
        = [[0x01, 0x42, 0x00, (lastMotor pad calls).1, (lastMotor pad calls).2,
            0x00, 0x00, 0x00, 0x00]] := by
  obtain ⟨s, hrun, hm⟩ := run_motor_levels calls (New psxType pins w0) hvalid
  obtain ⟨g', w', hu, _, _, hout⟩ := updateState_clockedOut s.1 s.2 pad (pad_lt_two pad hpad)
  have hnew := new_motor_levels psxType pins w0 pad
  have hlast := hm pad
  rw [hnew.1, hnew.2] at hlast
  have hlt := lastMotorFrom_lt pad calls (0x00, 0x00) (by decide) hvalid
  have h1 : s.1.motor1Level pad = (lastMotor pad calls).1 := congrArg Prod.fst hlast
  have h2 : s.1.motor2Level pad = (lastMotor pad calls).2 := congrArg Prod.snd hlast
  refine ⟨s.1, s.2, g', w', hrun, hu, ?_⟩
  rw [hout, h1, h2, lastMotor, Nat.mod_eq_of_lt hlt.1, Nat.mod_eq_of_lt hlt.2]

/-- C5 at a concrete input: `Motor(Pad1, 0xFF, 0x80)`, after an earlier `Motor` for the same pad
and amid calls for the other pad, followed by `UpdateState(Pad1)`. -/
theorem C5_poll_command_bytes_witness :
    ∃ g w g' w',
      run (New PS2 examplePins (freshWire (highExcept [])))
        [Call.motor Pad1 0x00 0x40, Call.motor Pad1 Motor1On 0x80, Call.motor Pad2 0x00 0x11,
         Call.updateState Pad2, Call.mode Pad2 ModeAnalog ModeLock] = some (g, w) ∧
      g.UpdateState w Pad1 = some (g', w') ∧
      clockedOut (newEvents w w')
        = [[0x01, 0x42, 0x00, 0xFF, 0x80, 0x00, 0x00, 0x00, 0x00]] :=
  C5_poll_command_bytes PS2 examplePins (freshWire (highExcept []))
    [Call.motor Pad1 0x00 0x40, Call.motor Pad1 Motor1On 0x80, Call.motor Pad2 0x00 0x11,
     Call.updateState Pad2, Call.mode Pad2 ModeAnalog ModeLock] Pad1 (Or.inl rfl) (by decide)

/-- C6: `Motor(pad, m1, m2)`, for a pad in {Pad1, Pad2}, returns with the wire untouched (no line
driven, no delay, no sample taken) and changes only `motor1Level[pad]` and `motor2Level[pad]`:
both key-state buffers of both pads, the response buffer, the other pad's motor levels, the pins
and the timing profile are as before. -/
theorem C6_motor_pure (g : GPSX) (w : Wire) (pad m1 m2 : Nat)
    (hpad : pad = Pad1 ∨ pad = Pad2) :
    ∃ g', g.Motor w pad m1 m2 = some (g', w) ∧
      newEvents w w = [] ∧
      g'.motor1Level pad = m1 ∧ g'.motor2Level pad = m2 ∧
      (∀ q, q ≠ pad → g'.motor1Level q = g.motor1Level q ∧ g'.motor2Level q = g.motor2Level q) ∧
      g'.keyState = g.keyState ∧ g'.padState = g.padState ∧
      g'.psxType = g.psxType ∧ g'.pins = g.pins ∧
      g'.waitAfterATT = g.waitAfterATT ∧ g'.commandInterval = g.commandInterval ∧
      g'.clkHalfCycle = g.clkHalfCycle ∧ g'.ackWaitDuration = g.ackWaitDuration := by
  have h := pad_lt_two pad hpad
  refine ⟨{ g with motor1Level := setAt g.motor1Level pad m1,
                    motor2Level := setAt g.motor2Level pad m2 },
    by simp only [GPSX.Motor, if_pos h], by simp [newEvents], ?_, ?_, ?_, rfl, rfl, rfl,
    rfl, rfl, rfl, rfl, rfl⟩
  · simp
  · simp
  · intro q hq
    simp [hq]

/-- C6 at a concrete input: `Motor(Pad2, Motor1On, 0x80)` on an idle session. -/
theorem C6_motor_pure_witness :
    ∃ g', idleSession.Motor (freshWire (highExcept [])) Pad2 Motor1On 0x80
        = some (g', freshWire (highExcept [])) ∧
      g'.motor1Level Pad2 = 0xFF ∧ g'.motor2Level Pad2 = 0x80 ∧
      g'.motor1Level Pad1 = 0x00 ∧ g'.keyState = idleSession.keyState := by
  obtain ⟨g', hm, _, h1, h2, ho, hk, _⟩ :=
    C6_motor_pure idleSession (freshWire (highExcept [])) Pad2 Motor1On 0x80 (Or.inr rfl)
  exact ⟨g', hm, h1, h2, (ho Pad1 (by decide)).1, hk⟩

/-- C7: for every pad and all bytes `mode` and `lock`, `Mode(pad, mode, lock)` performs exactly
three transactions, in this order: `01 43 00 01 00 00 00 00 00`, then
`01 44 00 mode lock 00 00 00 00`, then `01 43 00 00 5A 5A 5A 5A 5A`; with `ModeAnalog` and
`ModeLock` the middle one is `01 44 00 01 03 00 00 00 00`. -/
theorem C7_mode_transactions (g : GPSX) (w : Wire) (pad mode lock : Nat)
    (hmode : mode < 256) (hlock : lock < 256) :
    clockedOut (newEvents w (g.Mode w pad mode lock).2)
        = [[0x01, 0x43, 0x00, 0x01, 0x00, 0x00, 0x00, 0x00, 0x00],
           [0x01, 0x44, 0x00, mode, lock, 0x00, 0x00, 0x00, 0x00],
           [0x01, 0x43, 0x00, 0x00, 0x5A, 0x5A, 0x5A, 0x5A, 0x5A]] ∧
      clockedOut (newEvents w (g.Mode w pad ModeAnalog ModeLock).2)
        = [[0x01, 0x43, 0x00, 0x01, 0x00, 0x00, 0x00, 0x00, 0x00],
           [0x01, 0x44, 0x00, 0x01, 0x03, 0x00, 0x00, 0x00, 0x00],
           [0x01, 0x43, 0x00, 0x00, 0x5A, 0x5A, 0x5A, 0x5A, 0x5A]] := by
  constructor
  · rw [mode_clockedOut, Nat.mod_eq_of_lt hmode, Nat.mod_eq_of_lt hlock]
  · rw [mode_clockedOut]
    rfl

/-- C7 at a concrete input: `Mode(Pad1, ModeDigital, ModeUnlock)` on a new session. -/
theorem C7_mode_transactions_witness :
    clockedOut (newEvents (New PS2 examplePins (freshWire (highExcept []))).2
        ((New PS2 examplePins (freshWire (highExcept []))).1.Mode
          (New PS2 examplePins (freshWire (highExcept []))).2 Pad1 ModeDigital ModeUnlock).2)
      = [[0x01, 0x43, 0x00, 0x01, 0x00, 0x00, 0x00, 0x00, 0x00],
         [0x01, 0x44, 0x00, 0x00, 0x02, 0x00, 0x00, 0x00, 0x00],
         [0x01, 0x43, 0x00, 0x00, 0x5A, 0x5A, 0x5A, 0x5A, 0x5A]] :=
  (C7_mode_transactions (New PS2 examplePins (freshWire (highExcept []))).1
    (New PS2 examplePins (freshWire (highExcept []))).2 Pad1 ModeDigital ModeUnlock
    (by decide) (by decide)).1

/-- C8: for every pad and all enable bytes `e1` and `e2`, `MotorEnable(pad, e1, e2)` performs
exactly three transactions, in this order: `01 43 00 01 00 00 00 00 00`, then
`01 4D 00 e1 e2 FF FF FF FF`, then `01 43 00 00 5A 5A 5A 5A 5A`. -/
theorem C8_motorEnable_transactions (g : GPSX) (w : Wire) (pad e1 e2 : Nat)
    (h1 : e1 < 256) (h2 : e2 < 256) :
    clockedOut (newEvents w (g.MotorEnable w pad e1 e2).2)
      = [[0x01, 0x43, 0x00, 0x01, 0x00, 0x00, 0x00, 0x00, 0x00],
         [0x01, 0x4D, 0x00, e1, e2, 0xFF, 0xFF, 0xFF, 0xFF],
         [0x01, 0x43, 0x00, 0x00, 0x5A, 0x5A, 0x5A, 0x5A, 0x5A]] := by
  rw [motorEnable_clockedOut, Nat.mod_eq_of_lt h1, Nat.mod_eq_of_lt h2]

/-- C8 at a concrete input: `MotorEnable(Pad1, Motor1Enable, Motor2Enable)` as in
examples/basic. -/
theorem C8_motorEnable_transactions_witness :
    clockedOut (newEvents (New PS2 examplePins (freshWire (highExcept []))).2
        ((New PS2 examplePins (freshWire (highExcept []))).1.MotorEnable
          (New PS2 examplePins (freshWire (highExcept []))).2 Pad1 Motor1Enable Motor2Enable).2)
      = [[0x01, 0x43, 0x00, 0x01, 0x00, 0x00, 0x00, 0x00, 0x00],
         [0x01, 0x4D, 0x00, 0x00, 0x01, 0xFF, 0xFF, 0xFF, 0xFF],
         [0x01, 0x43, 0x00, 0x00, 0x5A, 0x5A, 0x5A, 0x5A, 0x5A]] :=
  C8_motorEnable_transactions (New PS2 examplePins (freshWire (highExcept []))).1
    (New PS2 examplePins (freshWire (highExcept []))).2 Pad1 Motor1Enable Motor2Enable
    (by decide) (by decide)

/-! ## Which lines a transaction touches -/

theorem bitEvents_noAttLow (h n c : Nat) (d : Nat → Bool) :
    ∀ e ∈ bitEvents h n c d, isAttLow e = false := by
  induction n generalizing c d with
  | zero => simp [bitEvents]
  | succ n ih =>
    intro e he
    rw [bitEvents, List.mem_append] at he
    rcases he with he | he
    · by_cases hc : c &&& 0x01 ≠ 0
      · rw [if_pos hc] at he
        simp at he
        rcases he with rfl | rfl | rfl | rfl | rfl | rfl <;> simp [isAttLow]
      · rw [if_neg hc] at he
        simp at he
        rcases he with rfl | rfl | rfl | rfl | rfl | rfl <;> simp [isAttLow]
    · exact ih _ _ e he

theorem byteEvents_noAttLow (h a : Nat) (msg : List Nat) (n i : Nat) (d : Nat → Bool) :
    ∀ e ∈ byteEvents h a msg n i d, isAttLow e = false := by
  induction n generalizing i d with
  | zero => simp [byteEvents]
  | succ n ih =>
    intro e he
    rw [byteEvents, List.mem_append, List.mem_append] at he
    rcases he with (he | he) | he
    · exact bitEvents_noAttLow _ _ _ _ e he
    · simp at he
      subst he
      simp [isAttLow]
    · exact ih _ _ e he

theorem frameBody_noAttLow (g : GPSX) (msg : List Nat) (d : Nat → Bool) :
    ∀ e ∈ frameBody g msg d, isAttLow e = false := by
  intro e he
  rw [frameBody, List.mem_cons] at he
  rcases he with rfl | he
  · simp [isAttLow]
  · exact byteEvents_noAttLow _ _ _ _ _ _ e he

theorem count_clk_bitEvents (h n c : Nat) (d : Nat → Bool) :
    (bitEvents h n c d).count (Event.low Line.CLK) = n := by
  induction n generalizing c d with
  | zero => simp [bitEvents]
  | succ n ih =>
    rw [bitEvents, List.count_append, ih]
    by_cases hc : c &&& 0x01 ≠ 0
    · rw [if_pos hc]
      simp [List.count_cons]
      omega
    · rw [if_neg hc]
      simp [List.count_cons]
      omega

theorem count_clk_byteEvents (h a : Nat) (msg : List Nat) (n i : Nat) (d : Nat → Bool) :
    (byteEvents h a msg n i d).count (Event.low Line.CLK) = 8 * n := by
  induction n generalizing i d with
  | zero => simp [byteEvents]
  | succ n ih =>
    rw [byteEvents, List.count_append, List.count_append, ih, count_clk_bitEvents]
    simp [List.count_cons]
    omega

theorem count_clk_frameEvents (g : GPSX) (pad : Nat) (msg : List Nat) (d : Nat → Bool) :
    (frameEvents g pad msg d).count (Event.low Line.CLK) = 72 := by
  rw [frameEvents, List.count_append, List.count_cons, frameBody, List.count_cons,
    count_clk_byteEvents]
  rcases attLine_cases g pad with h | h <;> simp [h, List.count_cons]

theorem cmdAt_mod (msg : List Nat) (i : Nat) (hb : ∀ b ∈ msg, b < 256) :
    cmdAt msg i % 256 = msg.getD i 0 := by
  unfold cmdAt
  by_cases hi : i < msg.length
  · rw [if_pos hi]
    apply Nat.mod_eq_of_lt
    rw [List.getD_eq_getElem _ _ hi]
    exact hb _ (List.getElem_mem _)
  · rw [if_neg hi, List.getD_eq_default _ _ (by omega)]

theorem sentBytes_eq (msg : List Nat) (hb : ∀ b ∈ msg, b < 256) :
    sentBytes msg 9 0 = (List.range 9).map (fun i => msg.getD i 0) := by
  simp only [sentBytes, cmdAt_mod msg _ hb]
  rfl

theorem recvBytes_eq (g : GPSX) (w : Wire) (pad : Nat) (msg : List Nat) :
    recvBytes w.dat 9 0 = (List.range 9).map (g.sendCommand w pad msg).1.padState := by
  have h : ∀ i, i < 9 → (g.sendCommand w pad msg).1.padState i = response w.dat i := by
    intro i hi
    rw [sendCommand_padState, if_pos hi]
  have e : (List.range 9).map (g.sendCommand w pad msg).1.padState
      = [(g.sendCommand w pad msg).1.padState 0, (g.sendCommand w pad msg).1.padState 1,
         (g.sendCommand w pad msg).1.padState 2, (g.sendCommand w pad msg).1.padState 3,
         (g.sendCommand w pad msg).1.padState 4, (g.sendCommand w pad msg).1.padState 5,
         (g.sendCommand w pad msg).1.padState 6, (g.sendCommand w pad msg).1.padState 7,
         (g.sendCommand w pad msg).1.padState 8] := rfl
  rw [e, h 0 (by decide), h 1 (by decide), h 2 (by decide), h 3 (by decide), h 4 (by decide),
    h 5 (by decide), h 6 (by decide), h 7 (by decide), h 8 (by decide)]
  rfl

theorem sendCommand_pad2_eq (g : GPSX) (w : Wire) (msg : List Nat) (h : g.pins.AT2 = 0) :
    g.sendCommand w Pad2 msg = g.sendCommand w Pad1 msg := by
  simp [GPSX.sendCommand, h]

theorem sendCommand_pins (g : GPSX) (w : Wire) (pad : Nat) (msg : List Nat) :
    (g.sendCommand w pad msg).1.pins = g.pins := by
  rw [sendCommand_frame]

/-! ## Claims on the transaction framing -/

/-- C9, as the spec states it, fails on a session without an attention-2 line: a transaction for
pad 2 is attempted all the same, with an attention line pulled low and 72 clock pulses. -/
theorem C9_counterexample :
    singlePadSession.1.pins.AT2 = 0 ∧
      ¬ ((∀ e ∈ newEvents singlePadSession.2
            (singlePadSession.1.sendCommand singlePadSession.2 Pad2 [0x01, 0x42, 0x00]).2,
          isAttLow e = false) ∧
        (newEvents singlePadSession.2
            (singlePadSession.1.sendCommand singlePadSession.2 Pad2
              [0x01, 0x42, 0x00]).2).count (Event.low Line.CLK) = 0) := by
  refine ⟨rfl, ?_⟩
  rintro ⟨_, h⟩
  rw [sendCommand_newEvents, count_clk_frameEvents] at h
  exact absurd h (by decide)

/-- C9, amended: when no attention-2 line is configured (`pins.AT2 = 0`), a transaction for pad 2
is not refused; `sendCommand(Pad2, msg)` selects attention line 1 and does exactly what
`sendCommand(Pad1, msg)` does: it pulls AT1 low first, runs all 72 clock pulses of the nine
bytes, releases AT1 and never drives AT2; `Mode` and `MotorEnable` on `Pad2` likewise equal
their `Pad1` runs. -/
theorem C9_pad2_falls_back_to_AT1 (g : GPSX) (w : Wire) (msg : List Nat)
    (hAT2 : g.pins.AT2 = 0) :
    g.sendCommand w Pad2 msg = g.sendCommand w Pad1 msg ∧
      (newEvents w (g.sendCommand w Pad2 msg).2).head? = some (Event.low Line.AT1) ∧
      (newEvents w (g.sendCommand w Pad2 msg).2).count (Event.low Line.CLK) = 72 ∧
      Event.high Line.AT1 ∈ newEvents w (g.sendCommand w Pad2 msg).2 ∧
      (∀ e ∈ newEvents w (g.sendCommand w Pad2 msg).2,
        e ≠ Event.low Line.AT2 ∧ e ≠ Event.high Line.AT2) ∧
      (∀ mode lock, g.Mode w Pad2 mode lock = g.Mode w Pad1 mode lock) ∧
      (∀ e1 e2, g.MotorEnable w Pad2 e1 e2 = g.MotorEnable w Pad1 e1 e2) := by
  have hatt : attLine g Pad2 = Line.AT1 := by simp [attLine, hAT2]
  have hpins : ∀ (w0 : Wire) (q : Nat) (m : List Nat),
      (g.sendCommand w0 q m).1.pins.AT2 = 0 := by
    intro w0 q m
    rw [sendCommand_pins, hAT2]
  have hpins2 : ∀ (w0 w1 : Wire) (q : Nat) (m m1 : List Nat),
      ((g.sendCommand w0 q m).1.sendCommand w1 q m1).1.pins.AT2 = 0 := by
    intro w0 w1 q m m1
    rw [sendCommand_pins, sendCommand_pins, hAT2]
  refine ⟨sendCommand_pad2_eq g w msg hAT2, ?_, ?_, ?_, ?_, ?_, ?_⟩
  · rw [sendCommand_newEvents, frameEvents, hatt]
    rfl
  · rw [sendCommand_newEvents, count_clk_frameEvents]
  · rw [sendCommand_newEvents, frameEvents, hatt]
    simp
  · intro e he
    rw [sendCommand_newEvents, frameEvents, hatt] at he
    simp only [List.cons_append, List.mem_cons, List.mem_append, List.mem_singleton,
      List.not_mem_nil, or_false] at he
    rcases he with rfl | he | rfl | rfl
    · simp
    · have h1 := frameBody_noAttLow g msg w.dat e he
      have h2 := frameBody_noAttHigh g msg w.dat e he
      constructor
      · rintro rfl
        simp [isAttLow] at h1
      · rintro rfl
        simp [isAttHigh] at h2
    · simp
    · simp
  · intro mode lock
    simp only [GPSX.Mode]
    rw [sendCommand_pad2_eq g w _ hAT2, sendCommand_pad2_eq _ _ _ (hpins _ _ _),
      sendCommand_pad2_eq _ _ _ (hpins2 _ _ _ _ _)]
  · intro e1 e2
    simp only [GPSX.MotorEnable]
    rw [sendCommand_pad2_eq g w _ hAT2, sendCommand_pad2_eq _ _ _ (hpins _ _ _),
      sendCommand_pad2_eq _ _ _ (hpins2 _ _ _ _ _)]

/-- C9, amended, at a concrete input: the session of the package documentation, which has no
attention-2 line. -/
theorem C9_pad2_falls_back_to_AT1_witness :
    singlePadSession.1.pins.AT2 = 0 ∧
      singlePadSession.1.sendCommand singlePadSession.2 Pad2 [0x01, 0x42, 0x00]
        = singlePadSession.1.sendCommand singlePadSession.2 Pad1 [0x01, 0x42, 0x00] ∧
      (newEvents singlePadSession.2
        (singlePadSession.1.sendCommand singlePadSession.2 Pad2 [0x01, 0x42, 0x00]).2).head?
        = some (Event.low Line.AT1) :=
  ⟨rfl,
    (C9_pad2_falls_back_to_AT1 singlePadSession.1 singlePadSession.2 [0x01, 0x42, 0x00] rfl).1,
    (C9_pad2_falls_back_to_AT1 singlePadSession.1 singlePadSession.2 [0x01, 0x42, 0x00] rfl).2.1⟩

/-- C10: for every command `msg` of bytes (of any length, so in particular of length at most 9),
`sendCommand` is one transaction of exactly 9 byte transfers (72 clock pulses); transfer `i`
clocks out `msg[i]` when `i < len(msg)` and `0x00` otherwise; the byte sampled by transfer `i` is
what `padState[i]` holds afterwards; and `padState` is unchanged at index 9 and above. -/
theorem C10_sendCommand_transfers (g : GPSX) (w : Wire) (pad : Nat) (msg : List Nat)
    (hbytes : ∀ b ∈ msg, b < 256) :
    (newEvents w (g.sendCommand w pad msg).2).count (Event.low Line.CLK) = 72 ∧
      clockedOut (newEvents w (g.sendCommand w pad msg).2)
        = [(List.range 9).map (fun i => if i < msg.length then msg.getD i 0 else 0x00)] ∧
      clockedIn (newEvents w (g.sendCommand w pad msg).2)
        = [(List.range 9).map (g.sendCommand w pad msg).1.padState] ∧
      (∀ i, 9 ≤ i → (g.sendCommand w pad msg).1.padState i = g.padState i) := by
  refine ⟨?_, ?_, ?_, ?_⟩
  · rw [sendCommand_newEvents, count_clk_frameEvents]
  · rw [sendCommand_newEvents, clockedOut_frameEvents, sentBytes_eq msg hbytes]
    congr 1
    apply List.map_congr_left
    intro i _
    by_cases hi : i < msg.length
    · rw [if_pos hi]
    · rw [if_neg hi, List.getD_eq_default _ _ (by omega)]
  · rw [sendCommand_newEvents, clockedIn_frameEvents, recvBytes_eq g w pad msg]
  · intro i hi
    rw [sendCommand_padState, if_neg (by omega)]

/-- C10 at a concrete input: the four-byte enter-configuration command on pad 1, with the data
line low at samples 0 and 9. -/
theorem C10_sendCommand_transfers_witness :
    clockedOut (newEvents (freshWire (highExcept [0, 9]))
        (idleSession.sendCommand (freshWire (highExcept [0, 9])) Pad1
          [0x01, 0x43, 0x00, 0x01]).2)
        = [[0x01, 0x43, 0x00, 0x01, 0x00, 0x00, 0x00, 0x00, 0x00]] ∧
      (idleSession.sendCommand (freshWire (highExcept [0, 9])) Pad1
        [0x01, 0x43, 0x00, 0x01]).1.padState 1 = 0xFD ∧
      (idleSession.sendCommand (freshWire (highExcept [0, 9])) Pad1
        [0x01, 0x43, 0x00, 0x01]).1.padState 9 = 0x00 := by
  have h := C10_sendCommand_transfers idleSession (freshWire (highExcept [0, 9])) Pad1
    [0x01, 0x43, 0x00, 0x01] (by decide)
  refine ⟨?_, by decide, ?_⟩
  · rw [h.2.1]
    rfl
  · rw [h.2.2.2 9 (by decide)]
    rfl

/-! ## The bit order of readWriteByte -/

theorem bitEvents_eq_flatMap (h n c : Nat) (d : Nat → Bool) :
    bitEvents h n c d = (List.range n).flatMap (iterationEvents h c d) := by
  induction n generalizing c d with
  | zero => simp [bitEvents]
  | succ n ih =>
    rw [bitEvents, ih, List.range_succ_eq_map, List.flatMap_cons, List.flatMap_map]
    congr 1
    · have hand : c &&& 0x01 = c % 2 := Nat.and_one_is_mod c
      rcases Nat.mod_two_eq_zero_or_one c with h0 | h1
      · simp [iterationEvents, hand, Nat.testBit_zero, h0]
      · simp [iterationEvents, hand, Nat.testBit_zero, h1]
    · apply List.flatMap_congr
      intro k _
      simp [iterationEvents, Nat.testBit_shiftRight, Nat.add_comm 1 k]

theorem countP_cmd_bitEvents (h n c : Nat) (d : Nat → Bool) :
    (bitEvents h n c d).countP isCmdDrive = n := by
  induction n generalizing c d with
  | zero => simp [bitEvents]
  | succ n ih =>
    rw [bitEvents, List.countP_append, ih]
    by_cases hc : c &&& 0x01 ≠ 0
    · rw [if_pos hc]
      simp [List.countP_cons, isCmdDrive]
      omega
    · rw [if_neg hc]
      simp [List.countP_cons, isCmdDrive]
      omega

theorem readWriteByte_newEvents (g : GPSX) (w : Wire) (b : Nat) :
    newEvents w (g.readWriteByte w b).2 = bitEvents g.clkHalfCycle 8 b w.dat :=
  newEvents_of_trace _ _ _ (readWriteByteLoop_trace g 8 b 0 w)

theorem takeBits_eight (d : Nat → Bool) : takeBits 8 d = (List.range 8).map d := by
  simp only [takeBits, Nat.zero_add, Nat.reduceAdd]
  rfl

theorem byteOfBits_takeBits_eight (d : Nat → Bool) :
    byteOfBits (takeBits 8 d) = ∑ k ∈ Finset.range 8, (d k).toNat * 2 ^ k := by
  simp only [takeBits, byteOfBits, Nat.zero_add, Nat.reduceAdd, Finset.sum_range_succ,
    Finset.sum_range_zero]
  omega

theorem readWriteByte_fst (g : GPSX) (w : Wire) (b : Nat) :
    (g.readWriteByte w b).1 = byteOfBits (takeBits 8 w.dat) := by
  rw [GPSX.readWriteByte, readWriteByteLoop_fst, recvLoop_eq]

/-! ## Claims on the byte transfer -/

/-- C11: `readWriteByte(b)` transmits least significant bit first: its events are those of eight
iterations `k = 0..7`, each of which first drives the command line, high exactly when bit `k` of
`b` is 1, then pulses the clock low and high and samples the data line; so the command line is
driven exactly 8 times. -/
theorem C11_lsb_first_transmit (g : GPSX) (w : Wire) (b : Nat) :
    newEvents w (g.readWriteByte w b).2
        = (List.range 8).flatMap (iterationEvents g.clkHalfCycle b w.dat) ∧
      (newEvents w (g.readWriteByte w b).2).countP isCmdDrive = 8 := by
  rw [readWriteByte_newEvents]
  exact ⟨bitEvents_eq_flatMap _ _ _ _, countP_cmd_bitEvents _ _ _ _⟩

/-- C12: the byte `readWriteByte` returns is the sum over `k` of `s_k * 2^k`, where `s_0 .. s_7`
are the eight data-line samples in the order they were taken (`s_0` first): the first sample is
bit 0 and the last is bit 7; the samples are the ones recorded on the wire, and the result does
not depend on the byte being sent. -/
theorem C12_msb_shift_receive (g : GPSX) (w : Wire) (b : Nat) :
    (g.readWriteByte w b).1 = ∑ k ∈ Finset.range 8, (w.dat k).toNat * 2 ^ k ∧
      datBits (newEvents w (g.readWriteByte w b).2) = (List.range 8).map w.dat ∧
      (∀ b', (g.readWriteByte w b').1 = (g.readWriteByte w b).1) := by
  refine ⟨?_, ?_, ?_⟩
  · rw [readWriteByte_fst, byteOfBits_takeBits_eight]
  · have h := datBits_bitEvents g.clkHalfCycle 8 b w.dat []
    rw [List.append_nil] at h
    rw [readWriteByte_newEvents, h, takeBits_eight]
    simp [datBits]
  · intro b'
    rw [readWriteByte_fst, readWriteByte_fst]

/-! ## Claims on the attention line, the mode flags and the axes -/

theorem count_clkHigh_bitEvents (h n c : Nat) (d : Nat → Bool) :
    (bitEvents h n c d).count (Event.high Line.CLK) = n := by
  induction n generalizing c d with
  | zero => simp [bitEvents]
  | succ n ih =>
    rw [bitEvents, List.count_append, ih]
    by_cases hc : c &&& 0x01 ≠ 0
    · rw [if_pos hc]
      simp [List.count_cons]
      omega
    · rw [if_neg hc]
      simp [List.count_cons]
      omega

theorem count_clkHigh_byteEvents (h a : Nat) (msg : List Nat) (n i : Nat) (d : Nat → Bool) :
    (byteEvents h a msg n i d).count (Event.high Line.CLK) = 8 * n := by
  induction n generalizing i d with
  | zero => simp [byteEvents]
  | succ n ih =>
    rw [byteEvents, List.count_append, List.count_append, ih, count_clkHigh_bitEvents]
    simp [List.count_cons]
    omega

theorem count_clk_frameBody (g : GPSX) (msg : List Nat) (d : Nat → Bool) :
    (frameBody g msg d).count (Event.low Line.CLK) = 72 ∧
      (frameBody g msg d).count (Event.high Line.CLK) = 72 := by
  rw [frameBody, List.count_cons, List.count_cons, count_clk_byteEvents,
    count_clkHigh_byteEvents]
  simp

/-- C13: in the events of one `sendCommand(pad, msg)` whose attention line is configured (`Pad1`,
or `Pad2` with `pins.AT2` set), the first event pulls the selected line low (AT1 for `Pad1`, AT2
for `Pad2`), the 72 clock pulses all lie between that and the release of the same line, which is
followed only by the inter-transaction delay; no event in between touches an attention line, so
the other pad's line is never driven. -/
theorem C13_attention_framing (g : GPSX) (w : Wire) (pad : Nat) (msg : List Nat)
    (hcfg : pad = Pad1 ∨ (pad = Pad2 ∧ g.pins.AT2 ≠ 0)) :
    ∃ body,
      newEvents w (g.sendCommand w pad msg).2
        = Event.low (if pad = Pad1 then Line.AT1 else Line.AT2) :: body
          ++ [Event.high (if pad = Pad1 then Line.AT1 else Line.AT2),
              Event.sleep g.commandInterval] ∧
      body.count (Event.low Line.CLK) = 72 ∧
      body.count (Event.high Line.CLK) = 72 ∧
      (∀ e ∈ body, isAttLow e = false ∧ isAttHigh e = false) := by
  have hatt : attLine g pad = if pad = Pad1 then Line.AT1 else Line.AT2 := by
    rcases hcfg with h | ⟨h, h2⟩
    · subst h
      simp [attLine]
    · subst h
      simp [attLine, h2]
  refine ⟨frameBody g msg w.dat, ?_, (count_clk_frameBody g msg w.dat).1,
    (count_clk_frameBody g msg w.dat).2, ?_⟩
  · rw [sendCommand_newEvents, frameEvents, hatt]
  · intro e he
    exact ⟨frameBody_noAttLow g msg w.dat e he, frameBody_noAttHigh g msg w.dat e he⟩

/-- C13 at a concrete input: a poll command for pad 2 on the pins of examples/basic, where
attention line 2 is pin 6. -/
theorem C13_attention_framing_witness :
    ∃ body,
      newEvents (freshWire (highExcept []))
          (idleSession.sendCommand (freshWire (highExcept [])) Pad2 [0x01, 0x42, 0x00]).2
        = Event.low Line.AT2 :: body
          ++ [Event.high Line.AT2, Event.sleep idleSession.commandInterval] ∧
      body.count (Event.low Line.CLK) = 72 ∧
      (∀ e ∈ body, isAttLow e = false ∧ isAttHigh e = false) := by
  obtain ⟨body, h1, h2, _, h4⟩ := C13_attention_framing idleSession
    (freshWire (highExcept [])) Pad2 [0x01, 0x42, 0x00] (Or.inr ⟨rfl, by decide⟩)
  exact ⟨body, h1, h2, h4⟩

set_option maxRecDepth 100000 in
theorem and_F0_small : ∀ x < 256, x &&& 0xF0 = (x / 16 % 16) * 16 := by decide

theorem and_F0_mod (b : Nat) : b &&& 0xF0 = (b % 256) &&& 0xF0 := by
  apply Nat.eq_of_testBit_eq
  intro i
  rw [Nat.testBit_and, Nat.testBit_and, show (256 : Nat) = 2 ^ 8 from rfl,
    Nat.testBit_mod_two_pow]
  by_cases h : i < 8
  · simp [h]
  · have : (0xF0 : Nat).testBit i = false := by
      apply Nat.testBit_lt_two_pow
      calc (0xF0 : Nat) < 2 ^ 8 := by decide
        _ ≤ 2 ^ i := Nat.pow_le_pow_right (by decide) (by omega)
    simp [this]

theorem and_F0_eq (b : Nat) : b &&& 0xF0 = (b / 16 % 16) * 16 := by
  rw [and_F0_mod, and_F0_small _ (Nat.mod_lt _ (by decide))]
  omega

/-- C14: for a pad in {Pad1, Pad2} and every session state, `IsAnalog(pad)` holds exactly when
the high nibble of `current[1]` is `0x7` and `IsDigital(pad)` exactly when it is `0x4`; so they
are never both true, and both are false for every other nibble value. -/
theorem C14_mode_flags (g : GPSX) (pad : Nat) (hpad : pad = Pad1 ∨ pad = Pad2) :
    g.IsAnalog pad = some (decide (g.keyState pad stateCurrent 1 / 16 % 16 = 0x7)) ∧
      g.IsDigital pad = some (decide (g.keyState pad stateCurrent 1 / 16 % 16 = 0x4)) ∧
      ¬ (g.IsAnalog pad = some true ∧ g.IsDigital pad = some true) ∧
      (g.keyState pad stateCurrent 1 / 16 % 16 ≠ 0x7 →
        g.keyState pad stateCurrent 1 / 16 % 16 ≠ 0x4 →
        g.IsAnalog pad = some false ∧ g.IsDigital pad = some false) := by
  have h := pad_lt_two pad hpad
  have ha : g.IsAnalog pad
      = some (decide (g.keyState pad stateCurrent 1 / 16 % 16 = 0x7)) := by
    simp only [GPSX.IsAnalog, if_pos h, and_F0_eq]
    congr 1
    apply decide_eq_decide.mpr
    omega
  have hd : g.IsDigital pad
      = some (decide (g.keyState pad stateCurrent 1 / 16 % 16 = 0x4)) := by
    simp only [GPSX.IsDigital, if_pos h, and_F0_eq]
    congr 1
    apply decide_eq_decide.mpr
    omega
  refine ⟨ha, hd, ?_, ?_⟩
  · rw [ha, hd]
    simp only [Option.some.injEq, decide_eq_true_eq]
    omega
  · intro h7 h4
    rw [ha, hd]
    simp [h7, h4]

/-- C14 at a concrete input: an idle session, whose `current[1]` is `0xFF` on pad 2. -/
theorem C14_mode_flags_witness :
    idleSession.IsAnalog Pad2 = some false ∧ idleSession.IsDigital Pad2 = some false :=
  (C14_mode_flags idleSession Pad2 (Or.inr rfl)).2.2.2 (by decide) (by decide)

/-- C15: for a pad in {Pad1, Pad2}, `UpdateState(pad)` returns and afterwards the four axis reads
are the response bytes 5, 6, 7 and 8 of that poll, whatever the mode nibble of the response. -/
theorem C15_analog_axes (g : GPSX) (w : Wire) (pad : Nat) (hpad : pad = Pad1 ∨ pad = Pad2) :
    ∃ g' w', g.UpdateState w pad = some (g', w') ∧
      g'.AnalogRightX pad = some (pollResponse g w pad 5) ∧
      g'.AnalogRightY pad = some (pollResponse g w pad 6) ∧
      g'.AnalogLeftX pad = some (pollResponse g w pad 7) ∧
      g'.AnalogLeftY pad = some (pollResponse g w pad 8) := by
  have h := pad_lt_two pad hpad
  obtain ⟨g', w', hu, hc, _, _, _⟩ := updateState_button g w pad h
  refine ⟨g', w', hu, ?_, ?_, ?_, ?_⟩
  · simp only [GPSX.AnalogRightX, if_pos h, hc 5 (by decide)]
  · simp only [GPSX.AnalogRightY, if_pos h, hc 6 (by decide)]
  · simp only [GPSX.AnalogLeftX, if_pos h, hc 7 (by decide)]
  · simp only [GPSX.AnalogLeftY, if_pos h, hc 8 (by decide)]

/-- C15 at a concrete input: a poll of pad 1 whose byte 5 is `0x7F` (sample 47 low) and whose
byte 8 is `0xFE` (sample 64 low). -/
theorem C15_analog_axes_witness :
    ∃ g' w', idleSession.UpdateState (freshWire (highExcept [47, 64])) Pad1 = some (g', w') ∧
      g'.AnalogRightX Pad1 = some 0x7F ∧ g'.AnalogLeftY Pad1 = some 0xFE := by
  obtain ⟨g', w', hu, hx, _, _, hy⟩ :=
    C15_analog_axes idleSession (freshWire (highExcept [47, 64])) Pad1 (Or.inl rfl)
  refine ⟨g', w', hu, ?_, ?_⟩
  · rw [hx, pollResponse_eq, if_pos (by decide)]
    decide
  · rw [hy, pollResponse_eq, if_pos (by decide)]
    decide

/-! ## What a sequence of calls leaves alone -/

theorem step_frame (s : GPSX × Wire) (c : Call) (p : Nat) (hc : c.valid = true) :
    ∃ s', step s c = some s' ∧ s'.1.timing = s.1.timing ∧ s'.1.pins = s.1.pins ∧
      s'.1.psxType = s.1.psxType ∧
      (c ≠ Call.updateState p → s'.1.keyState p = s.1.keyState p) := by
  cases c with
  | updateState pad =>
    have h : pad < 2 := pad_lt_two pad (by simpa [Call.valid] using hc)
    obtain ⟨g', w', hu, _, _, hk, _, _, _, hp, ht, h1, h2, h3, h4⟩ :=
      updateState_spec s.1 s.2 pad h
    refine ⟨(g', w'), hu, by simp [GPSX.timing, h1, h2, h3, h4], hp, ht, ?_⟩
    intro hne
    have hq : ¬ p = pad := fun e => hne (by rw [e])
    funext st j
    rw [hk]
    simp [hq]
  | motor pad m1 m2 =>
    have hv : (pad = Pad1 ∨ pad = Pad2) ∧ m1 < 256 ∧ m2 < 256 := by
      simpa [Call.valid] using hc
    have h : pad < 2 := pad_lt_two pad hv.1
    exact ⟨({ s.1 with motor1Level := setAt s.1.motor1Level pad m1,
                       motor2Level := setAt s.1.motor2Level pad m2 }, s.2),
      by simp only [step, GPSX.Motor, if_pos h], rfl, rfl, rfl, fun _ => rfl⟩
  | motorEnable pad e1 e2 =>
    refine ⟨_, rfl, ?_, ?_, ?_, fun _ => ?_⟩ <;> rw [motorEnable_frame]
    rfl
  | mode pad m l =>
    refine ⟨_, rfl, ?_, ?_, ?_, fun _ => ?_⟩ <;> rw [mode_frame]
    rfl

theorem run_frame (calls : List Call) (s : GPSX × Wire) (p : Nat)
    (hv : ∀ c ∈ calls, c.valid = true) :
    ∃ s', run s calls = some s' ∧ s'.1.timing = s.1.timing ∧ s'.1.pins = s.1.pins ∧
      s'.1.psxType = s.1.psxType ∧
      ((∀ c ∈ calls, c ≠ Call.updateState p) → s'.1.keyState p = s.1.keyState p) := by
  induction calls generalizing s with
  | nil => exact ⟨s, rfl, rfl, rfl, rfl, fun _ => rfl⟩
  | cons c cs ih =>
    obtain ⟨s1, h1, t1, p1, x1, k1⟩ := step_frame s c p (hv c (List.mem_cons_self _ _))
    obtain ⟨s2, h2, t2, p2, x2, k2⟩ := ih s1 (fun x hx => hv x (List.mem_cons_of_mem _ hx))
    refine ⟨s2, by simp [run, h1, h2], t2.trans t1, p2.trans p1, x2.trans x1, ?_⟩
    intro hne
    rw [k2 (fun x hx => hne x (List.mem_cons_of_mem _ hx)), k1 (hne c (List.mem_cons_self _ _))]

/-! ## Claims on stability, timing and the catalogue -/

/-- C16: between polls of pad `p` its query answers are stable: any sequence of valid `Motor`,
`Mode` and `MotorEnable` calls on either pad and of `UpdateState` calls on the other pad returns
and leaves `keyState[p]`, and with it `IsDown`, `Pressed`, `Released`, `IsAnalog`, `IsDigital`
and the four axis reads on `p`, unchanged; so only `UpdateState(p)` can change them. -/
theorem C16_queries_stable_between_polls (s : GPSX × Wire) (calls : List Call) (p : Nat)
    (hvalid : ∀ c ∈ calls, c.valid = true)
    (hother : ∀ c ∈ calls, c ≠ Call.updateState p) :
    ∃ s', run s calls = some s' ∧
      s'.1.keyState p = s.1.keyState p ∧
      (∀ d, s'.1.IsDown p d = s.1.IsDown p d) ∧
      (∀ d, s'.1.Pressed p d = s.1.Pressed p d) ∧
      (∀ d, s'.1.Released p d = s.1.Released p d) ∧
      s'.1.IsAnalog p = s.1.IsAnalog p ∧
      s'.1.IsDigital p = s.1.IsDigital p ∧
      s'.1.AnalogRightX p = s.1.AnalogRightX p ∧
      s'.1.AnalogRightY p = s.1.AnalogRightY p ∧
      s'.1.AnalogLeftX p = s.1.AnalogLeftX p ∧
      s'.1.AnalogLeftY p = s.1.AnalogLeftY p := by
  obtain ⟨s', hrun, _, _, _, hk⟩ := run_frame calls s p hvalid
  have h := hk hother
  refine ⟨s', hrun, h, ?_, ?_, ?_, ?_, ?_, ?_, ?_, ?_, ?_⟩
  · intro d
    simp only [GPSX.IsDown, h]
  · intro d
    simp only [GPSX.Pressed, h]
  · intro d
    simp only [GPSX.Released, h]
  · simp only [GPSX.IsAnalog, h]
  · simp only [GPSX.IsDigital, h]
  · simp only [GPSX.AnalogRightX, h]
  · simp only [GPSX.AnalogRightY, h]
  · simp only [GPSX.AnalogLeftX, h]
  · simp only [GPSX.AnalogLeftY, h]

/-- C16 at a concrete input: pad 1 of an idle session through motor, mode and motor-enable calls on
both pads and two polls of pad 2. -/
theorem C16_queries_stable_between_polls_witness :
    ∃ s', run (idleSession, freshWire (highExcept [31]))
        [Call.motor Pad1 Motor1On 0x80, Call.updateState Pad2, Call.mode Pad1 ModeAnalog ModeLock,
         Call.motorEnable Pad2 Motor1Enable Motor2Enable, Call.updateState Pad2] = some s' ∧
      s'.1.IsDown Pad1 ButtonLeft = some false ∧
      s'.1.Pressed Pad1 ButtonLeft = some false ∧
      s'.1.AnalogLeftX Pad1 = some 0xFF := by
  obtain ⟨s', hrun, _, hd, hp, _, _, _, _, _, hx, _⟩ :=
    C16_queries_stable_between_polls (idleSession, freshWire (highExcept [31]))
      [Call.motor Pad1 Motor1On 0x80, Call.updateState Pad2, Call.mode Pad1 ModeAnalog ModeLock,
       Call.motorEnable Pad2 Motor1Enable Motor2Enable, Call.updateState Pad2] Pad1
      (by decide) (by decide)
  refine ⟨s', hrun, ?_, ?_, ?_⟩
  · rw [hd]
    decide
  · rw [hp]
    decide
  · rw [hx]
    decide

/-- C17: the timing profile is fixed at construction: `New(PS1, pins)` yields
(50us, 16ms, 2us, 15us), `New` with any other selector yields (15us, 10ms, 1us, 15us), and any
sequence of valid `UpdateState`, `Motor`, `MotorEnable` and `Mode` calls returns with the four
durations still those chosen by `New`. -/
theorem C17_timing_profile_fixed (psxType : Nat) (pins : PinConfig) (w : Wire)
    (calls : List Call) (hvalid : ∀ c ∈ calls, c.valid = true) :
    (New PS1 pins w).1.timing
        = (50 * Microsecond, 16 * Millisecond, 2 * Microsecond, 15 * Microsecond) ∧
      (psxType ≠ PS1 → (New psxType pins w).1.timing
        = (15 * Microsecond, 10 * Millisecond, 1 * Microsecond, 15 * Microsecond)) ∧
      ∃ s', run (New psxType pins w) calls = some s' ∧
        s'.1.timing = (New psxType pins w).1.timing := by
  refine ⟨rfl, ?_, ?_⟩
  · intro h
    simp [New, GPSX.timing, h]
  · obtain ⟨s', hrun, ht, _⟩ := run_frame calls (New psxType pins w) 0 hvalid
    exact ⟨s', hrun, ht⟩

/-- C17 at a concrete input: a `PS2` session through a poll, a motor call, a mode change and a
motor enable. -/
theorem C17_timing_profile_fixed_witness :
    ∃ s', run (New PS2 examplePins (freshWire (highExcept [])))
        [Call.updateState Pad1, Call.motor Pad1 Motor1On 0x00,
         Call.mode Pad1 ModeAnalog ModeLock, Call.motorEnable Pad1 Motor1Enable Motor2Enable]
        = some s' ∧
      s'.1.timing = (15000, 10000000, 1000, 15000) := by
  obtain ⟨_, h2, s', hrun, ht⟩ :=
    C17_timing_profile_fixed PS2 examplePins (freshWire (highExcept []))
      [Call.updateState Pad1, Call.motor Pad1 Motor1On 0x00,
       Call.mode Pad1 ModeAnalog ModeLock, Call.motorEnable Pad1 Motor1Enable Motor2Enable]
      (by decide)
  exact ⟨s', hrun, ht.trans (h2 (by decide))⟩

/-! ## The delays of a transaction -/

theorem totalSleep_append (a b : List Event) :
    totalSleep (a ++ b) = totalSleep a + totalSleep b := by
  induction a with
  | nil => simp [totalSleep]
  | cons e es ih =>
    cases e <;> simp [totalSleep, ih, Nat.add_assoc]

theorem totalSleep_bitEvents (h n c : Nat) (d : Nat → Bool) :
    totalSleep (bitEvents h n c d) = n * (2 * h) := by
  induction n generalizing c d with
  | zero => simp [bitEvents, totalSleep]
  | succ n ih =>
    rw [bitEvents, totalSleep_append, ih]
    by_cases hc : c &&& 0x01 ≠ 0
    · rw [if_pos hc]
      simp only [totalSleep]
      ring
    · rw [if_neg hc]
      simp only [totalSleep]
      ring

theorem totalSleep_byteEvents (h a : Nat) (msg : List Nat) (n i : Nat) (d : Nat → Bool) :
    totalSleep (byteEvents h a msg n i d) = n * (16 * h + a) := by
  induction n generalizing i d with
  | zero => simp [byteEvents, totalSleep]
  | succ n ih =>
    rw [byteEvents, totalSleep_append, totalSleep_append, ih, totalSleep_bitEvents]
    simp only [totalSleep]
    ring

theorem totalSleep_frameEvents (g : GPSX) (pad : Nat) (msg : List Nat) (d : Nat → Bool) :
    totalSleep (frameEvents g pad msg d)
      = g.waitAfterATT + 9 * (16 * g.clkHalfCycle + g.ackWaitDuration) + g.commandInterval := by
  rw [frameEvents, List.cons_append, frameBody]
  simp [totalSleep, totalSleep_append, totalSleep_byteEvents]
  omega

theorem new_PS2_timing (pins : PinConfig) (w : Wire) :
    (New PS2 pins w).1.waitAfterATT = 15 * Microsecond ∧
      (New PS2 pins w).1.commandInterval = 10 * Millisecond ∧
      (New PS2 pins w).1.clkHalfCycle = 1 * Microsecond ∧
      (New PS2 pins w).1.ackWaitDuration = 15 * Microsecond :=
  ⟨rfl, rfl, rfl, rfl⟩

theorem new_PS1_timing (pins : PinConfig) (w : Wire) :
    (New PS1 pins w).1.waitAfterATT = 50 * Microsecond ∧
      (New PS1 pins w).1.commandInterval = 16 * Millisecond ∧
      (New PS1 pins w).1.clkHalfCycle = 2 * Microsecond ∧
      (New PS1 pins w).1.ackWaitDuration = 15 * Microsecond :=
  ⟨rfl, rfl, rfl, rfl⟩

theorem totalSleep_three (g : GPSX) (pad : Nat) (m1 m2 m3 : List Nat) (d1 d2 d3 : Nat → Bool) :
    totalSleep (frameEvents g pad m1 d1 ++ (frameEvents g pad m2 d2 ++ frameEvents g pad m3 d3))
      = 3 * (g.waitAfterATT + 9 * (16 * g.clkHalfCycle + g.ackWaitDuration)
          + g.commandInterval) := by
  rw [totalSleep_append, totalSleep_append, totalSleep_frameEvents, totalSleep_frameEvents,
    totalSleep_frameEvents]
  omega

/-- C18: the delays requested during one `sendCommand` add up to
`waitAfterATT + 9 * (16 * clkHalfCycle + ackWaitDuration) + commandInterval`, for every command
and pad; in a `PS2` session that is 10294 microseconds and in a `PS1` session 16473 microseconds;
`Mode` and `MotorEnable` each cost three times the sum of one `sendCommand`. -/
theorem C18_transaction_delay_budget (g : GPSX) (w : Wire) (pad : Nat) (msg : List Nat)
    (pins : PinConfig) (w0 : Wire) (a b : Nat) :
    totalSleep (newEvents w (g.sendCommand w pad msg).2)
        = g.waitAfterATT + 9 * (16 * g.clkHalfCycle + g.ackWaitDuration)
          + g.commandInterval ∧
      totalSleep (newEvents w ((New PS2 pins w0).1.sendCommand w pad msg).2)
        = 10294 * Microsecond ∧
      totalSleep (newEvents w ((New PS1 pins w0).1.sendCommand w pad msg).2)
        = 16473 * Microsecond ∧
      totalSleep (newEvents w (g.Mode w pad a b).2)
        = 3 * totalSleep (newEvents w (g.sendCommand w pad msg).2) ∧
      totalSleep (newEvents w (g.MotorEnable w pad a b).2)
        = 3 * totalSleep (newEvents w (g.sendCommand w pad msg).2) := by
  refine ⟨?_, ?_, ?_, ?_, ?_⟩
  · rw [sendCommand_newEvents, totalSleep_frameEvents]
  · obtain ⟨h1, h2, h3, h4⟩ := new_PS2_timing pins w0
    rw [sendCommand_newEvents, totalSleep_frameEvents, h1, h2, h3, h4]
    simp only [Microsecond, Millisecond]
  · obtain ⟨h1, h2, h3, h4⟩ := new_PS1_timing pins w0
    rw [sendCommand_newEvents, totalSleep_frameEvents, h1, h2, h3, h4]
    simp only [Microsecond, Millisecond]
  · rw [newEvents_of_trace _ _ _ (mode_trace g w pad a b), totalSleep_three,
      sendCommand_newEvents, totalSleep_frameEvents]
  · rw [newEvents_of_trace _ _ _ (motorEnable_trace g w pad a b), totalSleep_three,
      sendCommand_newEvents, totalSleep_frameEvents]

/-- C19: the catalogue has exactly 16 descriptors; in source order they are bits 7..0 of byte 3
(Left, Down, Right, Up, Start, StickRight, StickLeft, Select) and bits 7..0 of byte 4 (Square,
Cross, Circle, Triangle, R1, L1, R2, L2); every mask has exactly one bit set, the descriptors are
pairwise distinct, eight sit at byte 3 and eight at byte 4, and every bit of bytes 3 and 4
belongs to exactly one button. -/
theorem C19_button_catalogue :
    catalogue.length = 16 ∧
      catalogue
        = [ButtonLeft, ButtonDown, ButtonRight, ButtonUp, ButtonStart, ButtonStickRight,
           ButtonStickLeft, ButtonSelect, ButtonSquare, ButtonCross, ButtonCircle,
           ButtonTriangle, ButtonR1, ButtonL1, ButtonR2, ButtonL2] ∧
      catalogue.map (fun d => (d.byteIndex, d.bitMask))
        = [(3, 2 ^ 7), (3, 2 ^ 6), (3, 2 ^ 5), (3, 2 ^ 4), (3, 2 ^ 3), (3, 2 ^ 2), (3, 2 ^ 1),
           (3, 2 ^ 0), (4, 2 ^ 7), (4, 2 ^ 6), (4, 2 ^ 5), (4, 2 ^ 4), (4, 2 ^ 3), (4, 2 ^ 2),
           (4, 2 ^ 1), (4, 2 ^ 0)] ∧
      (∀ d ∈ catalogue, ∃ k, k < 8 ∧ d.bitMask = 2 ^ k) ∧
      (catalogue.map (fun d => (d.byteIndex, d.bitMask))).Nodup ∧
      catalogue.countP (fun d => decide (d.byteIndex = 3)) = 8 ∧
      catalogue.countP (fun d => decide (d.byteIndex = 4)) = 8 ∧
      (∀ i ∈ [3, 4], ∀ k ∈ List.range 8,
        catalogue.countP (fun d => decide (d.byteIndex = i ∧ d.bitMask = 2 ^ k)) = 1) := by
  refine ⟨rfl, rfl, by decide, by decide, by decide, by decide, by decide, by decide⟩

/-! ## An unresponsive device -/

theorem response_const (d : Nat → Bool) (i : Nat) (b : Bool)
    (h : ∀ k, k < 8 → d (k + 8 * i) = b) :
    response d i = if b then 0xFF else 0x00 := by
  rw [response, recvLoop_explicit _ b b b b b b b b (h 0 (by decide)) (h 1 (by decide))
    (h 2 (by decide)) (h 3 (by decide)) (h 4 (by decide)) (h 5 (by decide)) (h 6 (by decide))
    (h 7 (by decide))]
  cases b <;> rfl

theorem pollResponse_const (g : GPSX) (w : Wire) (pad : Nat) (b : Bool)
    (h : ∀ n, n < 72 → w.dat n = b) (i : Nat) (hi : i < 9) :
    pollResponse g w pad i = if b then 0xFF else 0x00 := by
  rw [pollResponse_eq, if_pos hi]
  exact response_const w.dat i b (fun k hk => h _ (by omega))

/-- C20: an unresponsive device is decoded without any fault signal.  For a pad in {Pad1, Pad2},
if the data line reads high at each of the 72 samples of a poll, `UpdateState(pad)` returns with
all 9 response bytes `0xFF`, `IsDown` false for all 16 buttons, `IsAnalog` and `IsDigital` both
false and every axis 255; if it reads low at each sample, all 9 bytes are `0x00` and `IsDown`
is true for all 16 buttons. -/
theorem C20_unresponsive_device (g : GPSX) (w : Wire) (pad : Nat)
    (hpad : pad = Pad1 ∨ pad = Pad2) :
    ∃ g' w', g.UpdateState w pad = some (g', w') ∧
      ((∀ n, n < 72 → w.dat n = true) →
        (∀ i, i < 9 → pollResponse g w pad i = 0xFF) ∧
        (∀ i, i < 9 → g'.keyState pad stateCurrent i = 0xFF) ∧
        (∀ d, d ∈ catalogue → g'.IsDown pad d = some false) ∧
        g'.IsAnalog pad = some false ∧ g'.IsDigital pad = some false ∧
        g'.AnalogRightX pad = some 255 ∧ g'.AnalogRightY pad = some 255 ∧
        g'.AnalogLeftX pad = some 255 ∧ g'.AnalogLeftY pad = some 255) ∧
      ((∀ n, n < 72 → w.dat n = false) →
        (∀ i, i < 9 → pollResponse g w pad i = 0x00) ∧
        (∀ i, i < 9 → g'.keyState pad stateCurrent i = 0x00) ∧
        (∀ d, d ∈ catalogue → g'.IsDown pad d = some true)) := by
  have h := pad_lt_two pad hpad
  obtain ⟨g', w', hu, hc, _, _, _⟩ := updateState_button g w pad h
  refine ⟨g', w', hu, ?_, ?_⟩
  · intro hhigh
    have hr : ∀ i, i < 9 → g'.keyState pad stateCurrent i = 0xFF := by
      intro i hi
      rw [hc i hi, pollResponse_const g w pad true hhigh i hi]
      rfl
    refine ⟨fun i hi => pollResponse_const g w pad true hhigh i hi, hr, ?_, ?_, ?_, ?_, ?_,
      ?_, ?_⟩
    · intro d hd
      have hidx := catalogue_byteIndex d hd
      have h20 : pad < 2 ∧ d.byteIndex < PadBufferSize :=
        ⟨h, by simp only [PadBufferSize]; omega⟩
      simp only [GPSX.IsDown, if_pos h20, hr d.byteIndex (by omega)]
      simp only [catalogue, List.mem_cons, List.mem_singleton, List.not_mem_nil, or_false] at hd
      rcases hd with e | e | e | e | e | e | e | e | e | e | e | e | e | e | e | e <;>
        subst e <;> rfl
    · simp only [GPSX.IsAnalog, if_pos h, hr 1 (by decide)]
      rfl
    · simp only [GPSX.IsDigital, if_pos h, hr 1 (by decide)]
      rfl
    · simp only [GPSX.AnalogRightX, if_pos h, hr 5 (by decide)]
    · simp only [GPSX.AnalogRightY, if_pos h, hr 6 (by decide)]
    · simp only [GPSX.AnalogLeftX, if_pos h, hr 7 (by decide)]
    · simp only [GPSX.AnalogLeftY, if_pos h, hr 8 (by decide)]
  · intro hlow
    have hr : ∀ i, i < 9 → g'.keyState pad stateCurrent i = 0x00 := by
      intro i hi
      rw [hc i hi, pollResponse_const g w pad false hlow i hi]
      rfl
    refine ⟨fun i hi => pollResponse_const g w pad false hlow i hi, hr, ?_⟩
    intro d hd
    have hidx := catalogue_byteIndex d hd
    have h20 : pad < 2 ∧ d.byteIndex < PadBufferSize :=
      ⟨h, by simp only [PadBufferSize]; omega⟩
    simp only [GPSX.IsDown, if_pos h20, hr d.byteIndex (by omega)]
    simp

/-- C20 at concrete inputs: an idle session polled on a data line stuck high, and on one stuck
low. -/
theorem C20_unresponsive_device_witness :
    (∃ g' w', idleSession.UpdateState (freshWire (highExcept [])) Pad1 = some (g', w') ∧
      g'.keyState Pad1 stateCurrent 0 = 0xFF ∧
      (∀ d, d ∈ catalogue → g'.IsDown Pad1 d = some false) ∧
      g'.IsAnalog Pad1 = some false ∧ g'.IsDigital Pad1 = some false ∧
      g'.AnalogLeftY Pad1 = some 255) ∧
    (∃ g' w', idleSession.UpdateState (freshWire alwaysLow) Pad2 = some (g', w') ∧
      g'.keyState Pad2 stateCurrent 0 = 0x00 ∧
      (∀ d, d ∈ catalogue → g'.IsDown Pad2 d = some true)) := by
  constructor
  · obtain ⟨g', w', hu, hhigh, _⟩ :=
      C20_unresponsive_device idleSession (freshWire (highExcept [])) Pad1 (Or.inl rfl)
    obtain ⟨_, hr, hd, ha, hdg, _, _, _, hy⟩ := hhigh (fun _ _ => rfl)
    exact ⟨g', w', hu, hr 0 (by decide), hd, ha, hdg, hy⟩
  · obtain ⟨g', w', hu, _, hlow⟩ :=
      C20_unresponsive_device idleSession (freshWire alwaysLow) Pad2 (Or.inr rfl)
    obtain ⟨_, hr, hd⟩ := hlow (fun _ _ => rfl)
    exact ⟨g', w', hu, hr 0 (by decide), hd⟩

/-! ## Claims that hold in every state, and at start-up -/

/-- C21: in every session state, for every pad and every button descriptor, `Pressed` and
`Released` are never both true, `Pressed` implies `IsDown`, and `Released` implies that `IsDown`
is false. -/
theorem C21_edge_consistency (g : GPSX) (pad : Nat) (btn : Button) :
    ¬ (g.Pressed pad btn = some true ∧ g.Released pad btn = some true) ∧
      (g.Pressed pad btn = some true → g.IsDown pad btn = some true) ∧
      (g.Released pad btn = some true → g.IsDown pad btn = some false) := by
  by_cases h : pad < 2 ∧ btn.byteIndex < PadBufferSize
  · simp only [GPSX.Pressed, GPSX.Released, GPSX.IsDown, if_pos h, Option.some.injEq,
      Bool.and_eq_true, decide_eq_true_eq, decide_eq_false_iff_not]
    refine ⟨?_, ?_, ?_⟩
    · rintro ⟨⟨_, h1⟩, ⟨_, h2⟩⟩
      exact h2 h1
    · rintro ⟨_, h1⟩
      exact h1
    · rintro ⟨_, h1⟩
      exact h1
  · simp [GPSX.Pressed, GPSX.Released, GPSX.IsDown, h]

/-- C21 at a concrete input: right after Left goes down on an idle session, `Pressed` and
`IsDown` are true and `Released` is false. -/
theorem C21_edge_consistency_witness :
    ∃ g' w', idleSession.UpdateState (freshWire (highExcept [31])) Pad1 = some (g', w') ∧
      g'.Pressed Pad1 ButtonLeft = some true ∧ g'.IsDown Pad1 ButtonLeft = some true ∧
      g'.Released Pad1 ButtonLeft ≠ some true := by
  obtain ⟨g', w', hu, hc, _, hp, _⟩ :=
    updateState_button idleSession (freshWire (highExcept [31])) Pad1 (by decide)
  have hP : g'.Pressed Pad1 ButtonLeft = some true := by
    have h20 : Pad1 < 2 ∧ ButtonLeft.byteIndex < PadBufferSize := by decide
    simp only [GPSX.Pressed, if_pos h20]
    simp only [ButtonLeft, hc 3 (by decide), hp 3 (Or.inl rfl)]
    decide
  have h := C21_edge_consistency g' Pad1 ButtonLeft
  exact ⟨g', w', hu, hP, h.2.1 hP, fun hr => h.1 ⟨hP, hr⟩⟩

theorem new_keyState (psxType : Nat) (pins : PinConfig) (w : Wire) :
    (New psxType pins w).1.keyState = fun _ _ _ => 0 := by
  unfold New
  by_cases h : psxType = PS1 <;> simp [h]

/-- C22: start-up edge behaviour.  In a session fresh from `New` (zeroed buffers) `IsDown` is
true for all 16 buttons on both pads and `IsAnalog` and `IsDigital` are false; and after the
first `UpdateState(p)` (whatever valid calls other than `UpdateState(p)` came before it), for
every catalogued button `d`: if `d`'s response bit is set (not held), `Released` is true and
`Pressed` false; if it is clear (held), both are false, so a button held at the first poll gives
no `Pressed` edge. -/
theorem C22_startup_edges (psxType : Nat) (pins : PinConfig) (w0 : Wire)
    (calls : List Call) (p : Nat) (hpad : p = Pad1 ∨ p = Pad2)
    (hvalid : ∀ c ∈ calls, c.valid = true)
    (hfirst : ∀ c ∈ calls, c ≠ Call.updateState p) :
    (∀ q, q = Pad1 ∨ q = Pad2 →
        (∀ d, d ∈ catalogue → (New psxType pins w0).1.IsDown q d = some true) ∧
        (New psxType pins w0).1.IsAnalog q = some false ∧
        (New psxType pins w0).1.IsDigital q = some false) ∧
      ∃ s g' w', run (New psxType pins w0) calls = some s ∧
        s.1.UpdateState s.2 p = some (g', w') ∧
        ∀ d, d ∈ catalogue →
          (pollResponse s.1 s.2 p d.byteIndex &&& d.bitMask ≠ 0 →
            g'.Released p d = some true ∧ g'.Pressed p d = some false) ∧
          (pollResponse s.1 s.2 p d.byteIndex &&& d.bitMask = 0 →
            g'.Released p d = some false ∧ g'.Pressed p d = some false) := by
  have hk0 := new_keyState psxType pins w0
  constructor
  · intro q hq
    have h := pad_lt_two q hq
    refine ⟨?_, ?_, ?_⟩
    · intro d hd
      have hidx := catalogue_byteIndex d hd
      have h20 : q < 2 ∧ d.byteIndex < PadBufferSize :=
        ⟨h, by simp only [PadBufferSize]; omega⟩
      simp [GPSX.IsDown, h20, hk0]
    · simp [GPSX.IsAnalog, h, hk0]
    · simp [GPSX.IsDigital, h, hk0]
  · have h := pad_lt_two p hpad
    obtain ⟨s, hrun, _, _, _, hk⟩ := run_frame calls (New psxType pins w0) p hvalid
    have hks : s.1.keyState p = fun _ _ => 0 := by
      rw [hk hfirst, hk0]
    obtain ⟨g', w', hu, hc, _, hp, _⟩ := updateState_button s.1 s.2 p h
    refine ⟨s, g', w', hrun, hu, ?_⟩
    intro d hd
    have hidx := catalogue_byteIndex d hd
    have h9 : d.byteIndex < 9 := by omega
    have h20 : p < 2 ∧ d.byteIndex < PadBufferSize :=
      ⟨h, by simp only [PadBufferSize]; omega⟩
    have hprev : g'.keyState p statePrevious d.byteIndex = pollResponse s.1 s.2 p d.byteIndex := by
      rw [hp _ hidx, hks]
      simp
    constructor
    · intro hset
      simp only [GPSX.Pressed, GPSX.Released, if_pos h20, hc _ h9, hprev]
      simp [hset]
    · intro hclr
      simp only [GPSX.Pressed, GPSX.Released, if_pos h20, hc _ h9, hprev]
      simp [hclr]

/-- C22 at a concrete input: a `Motor` call, then the first poll of pad 1 of a new session, with
Left held (sample 31 low) and nothing else. -/
theorem C22_startup_edges_witness :
    ∃ s g' w', run (New PS2 examplePins (freshWire (highExcept [31])))
        [Call.motor Pad1 Motor1On 0x00] = some s ∧
      s.1.UpdateState s.2 Pad1 = some (g', w') ∧
      (g'.Released Pad1 ButtonLeft = some false ∧ g'.Pressed Pad1 ButtonLeft = some false) ∧
      (g'.Released Pad1 ButtonDown = some true ∧ g'.Pressed Pad1 ButtonDown = some false) := by
  obtain ⟨_, s, g', w', hrun, hu, hd⟩ :=
    C22_startup_edges PS2 examplePins (freshWire (highExcept [31]))
      [Call.motor Pad1 Motor1On 0x00] Pad1 (Or.inl rfl) (by decide) (by decide)
  have hdat : s.2.dat = highExcept [31] := by
    have e : ∃ g1, run (New PS2 examplePins (freshWire (highExcept [31])))
        [Call.motor Pad1 Motor1On 0x00]
          = some (g1, (New PS2 examplePins (freshWire (highExcept [31]))).2) := ⟨_, rfl⟩
    obtain ⟨g1, e⟩ := e
    rw [e] at hrun
    cases hrun
    rfl
  have r3l : pollResponse s.1 s.2 Pad1 ButtonLeft.byteIndex &&& ButtonLeft.bitMask = 0 := by
    rw [pollResponse_eq, hdat, if_pos (by decide)]
    decide
  have r3d : pollResponse s.1 s.2 Pad1 ButtonDown.byteIndex &&& ButtonDown.bitMask ≠ 0 := by
    rw [pollResponse_eq, hdat, if_pos (by decide)]
    decide
  exact ⟨s, g', w', hrun, hu, (hd ButtonLeft (by decide)).2 r3l,
    (hd ButtonDown (by decide)).1 r3d⟩

/-! ## The idle levels of the lines -/

theorem lastLevelFrom_append (l : Line) (cur : Option Bool) (a b : List Event) :
    lastLevelFrom l cur (a ++ b) = lastLevelFrom l (lastLevelFrom l cur a) b := by
  induction a generalizing cur with
  | nil => rfl
  | cons e es ih => exact ih _

theorem lastLevelFrom_untouched (l : Line) (cur : Option Bool) (ev : List Event)
    (h : ∀ e ∈ ev, e ≠ Event.high l ∧ e ≠ Event.low l) :
    lastLevelFrom l cur ev = cur := by
  induction ev generalizing cur with
  | nil => rfl
  | cons e es ih =>
    have he := h e (List.mem_cons_self _ _)
    rw [lastLevelFrom, if_neg he.1, if_neg he.2]
    exact ih cur (fun x hx => h x (List.mem_cons_of_mem _ hx))

theorem lastLevelFrom_clk_bitEvents (cur : Option Bool) (h n c : Nat) (d : Nat → Bool) :
    lastLevelFrom Line.CLK cur (bitEvents h (n + 1) c d) = some true := by
  induction n generalizing cur c d with
  | zero =>
    rw [bitEvents, bitEvents, List.append_nil]
    by_cases hc : c &&& 0x01 ≠ 0
    · rw [if_pos hc]
      simp [lastLevelFrom]
    · rw [if_neg hc]
      simp [lastLevelFrom]
  | succ n ih =>
    rw [bitEvents, lastLevelFrom_append, ih]

theorem lastLevelFrom_clk_byteEvents (cur : Option Bool) (h a : Nat) (msg : List Nat)
    (n i : Nat) (d : Nat → Bool) :
    lastLevelFrom Line.CLK cur (byteEvents h a msg (n + 1) i d) = some true := by
  induction n generalizing cur i d with
  | zero =>
    rw [byteEvents, byteEvents, List.append_nil, lastLevelFrom_append,
      lastLevelFrom_clk_bitEvents]
    simp [lastLevelFrom]
  | succ n ih =>
    rw [byteEvents, lastLevelFrom_append, ih]

theorem lastLevelFrom_clk_frameEvents (cur : Option Bool) (g : GPSX) (pad : Nat)
    (msg : List Nat) (d : Nat → Bool) :
    lastLevelFrom Line.CLK cur (frameEvents g pad msg d) = some true := by
  rw [frameEvents, List.cons_append, lastLevelFrom, frameBody, List.cons_append, lastLevelFrom,
    lastLevelFrom_append, lastLevelFrom_clk_byteEvents]
  rcases attLine_cases g pad with h | h <;> simp [h, lastLevelFrom]

theorem frameBody_att_untouched (g : GPSX) (msg : List Nat) (d : Nat → Bool) (l : Line)
    (hl : l = Line.AT1 ∨ l = Line.AT2) :
    ∀ e ∈ frameBody g msg d, e ≠ Event.high l ∧ e ≠ Event.low l := by
  intro e he
  have h1 := frameBody_noAttLow g msg d e he
  have h2 := frameBody_noAttHigh g msg d e he
  constructor
  · rintro rfl
    rcases hl with rfl | rfl <;> simp [isAttHigh] at h2
  · rintro rfl
    rcases hl with rfl | rfl <;> simp [isAttLow] at h1

theorem lastLevelFrom_att_frameEvents (cur : Option Bool) (g : GPSX) (pad : Nat)
    (msg : List Nat) (d : Nat → Bool) (l : Line) (hl : l = Line.AT1 ∨ l = Line.AT2)
    (hcur : cur = some true) :
    lastLevelFrom l cur (frameEvents g pad msg d) = some true := by
  rw [frameEvents, List.cons_append, lastLevelFrom, lastLevelFrom_append,
    lastLevelFrom_untouched l _ _ (frameBody_att_untouched g msg d l hl)]
  rcases attLine_cases g pad with h | h <;> rcases hl with rfl | rfl <;>
    simp [h, hcur, lastLevelFrom]

theorem idleLines_frameEvents (g g1 : GPSX) (w w1 : Wire) (pad : Nat) (msg : List Nat)
    (d : Nat → Bool) (hp : g1.pins = g.pins)
    (ht : w1.trace = w.trace ++ frameEvents g pad msg d) (h : idleLines (g, w)) :
    idleLines (g1, w1) := by
  obtain ⟨_, h1, h2⟩ := h
  simp only [idleLines, lastLevel] at *
  rw [ht, hp]
  refine ⟨?_, ?_, ?_⟩
  · rw [lastLevelFrom_append, lastLevelFrom_clk_frameEvents]
  · rw [lastLevelFrom_append, lastLevelFrom_att_frameEvents _ g pad msg d _ (Or.inl rfl) h1]
  · intro hat
    rw [lastLevelFrom_append,
      lastLevelFrom_att_frameEvents _ g pad msg d _ (Or.inr rfl) (h2 hat)]

theorem idleLines_sendCommand (g : GPSX) (w : Wire) (pad : Nat) (msg : List Nat)
    (h : idleLines (g, w)) : idleLines (g.sendCommand w pad msg) :=
  idleLines_frameEvents g _ w _ pad msg w.dat (sendCommand_pins g w pad msg)
    (sendCommand_trace g w pad msg) h

theorem new_pins (psxType : Nat) (pins : PinConfig) (w : Wire) :
    (New psxType pins w).1.pins = pins := by
  unfold New
  by_cases h : psxType = PS1 <;> simp [h]

theorem init_idle (g : GPSX) (w : Wire) :
    lastLevel Line.CLK (g.init w).trace = some true ∧
      lastLevel Line.AT1 (g.init w).trace = some true ∧
      (g.pins.AT2 ≠ 0 → lastLevel Line.AT2 (g.init w).trace = some true) := by
  by_cases h2 : g.pins.AT2 ≠ 0 <;> by_cases hk : g.pins.ACK ≠ 0 <;>
    simp [GPSX.init, h2, hk, Wire.Configure, Wire.High, Wire.Low, lastLevel,
      lastLevelFrom_append, lastLevelFrom]

theorem new_idle (psxType : Nat) (pins : PinConfig) (w : Wire) :
    idleLines (New psxType pins w) := by
  have hp := new_pins psxType pins w
  have h : (New psxType pins w).2 = (New psxType pins w).1.init w := by
    unfold New
    by_cases h : psxType = PS1 <;> simp [h, GPSX.init]
  unfold idleLines
  rw [h]
  exact init_idle _ w

theorem three_sendCommand_idle (g : GPSX) (w : Wire) (pad : Nat) (m1 m2 m3 : List Nat)
    (h : idleLines (g, w)) :
    idleLines (((g.sendCommand w pad m1).1.sendCommand (g.sendCommand w pad m1).2 pad m2).1.sendCommand
      ((g.sendCommand w pad m1).1.sendCommand (g.sendCommand w pad m1).2 pad m2).2 pad m3) := by
  have h1 : idleLines ((g.sendCommand w pad m1).1, (g.sendCommand w pad m1).2) :=
    idleLines_sendCommand g w pad m1 h
  have h2 : idleLines
      (((g.sendCommand w pad m1).1.sendCommand (g.sendCommand w pad m1).2 pad m2).1,
        ((g.sendCommand w pad m1).1.sendCommand (g.sendCommand w pad m1).2 pad m2).2) :=
    idleLines_sendCommand _ _ pad m2 h1
  exact idleLines_sendCommand _ _ pad m3 h2

theorem mode_idle (g : GPSX) (w : Wire) (pad mode lock : Nat) (h : idleLines (g, w)) :
    idleLines (g.Mode w pad mode lock) :=
  three_sendCommand_idle g w pad _ _ _ h

theorem motorEnable_idle (g : GPSX) (w : Wire) (pad e1 e2 : Nat) (h : idleLines (g, w)) :
    idleLines (g.MotorEnable w pad e1 e2) :=
  three_sendCommand_idle g w pad _ _ _ h

theorem step_idle (s : GPSX × Wire) (c : Call) (hc : c.valid = true) (h : idleLines s) :
    ∃ s', step s c = some s' ∧ idleLines s' := by
  cases c with
  | updateState pad =>
    have hp : pad < 2 := pad_lt_two pad (by simpa [Call.valid] using hc)
    obtain ⟨g', w', hu, ht, _, _, _, _, _, hpins, _⟩ := updateState_spec s.1 s.2 pad hp
    exact ⟨(g', w'), hu, idleLines_frameEvents s.1 g' s.2 w' pad _ _ hpins ht h⟩
  | motor pad m1 m2 =>
    have hv : (pad = Pad1 ∨ pad = Pad2) ∧ m1 < 256 ∧ m2 < 256 := by
      simpa [Call.valid] using hc
    have hp : pad < 2 := pad_lt_two pad hv.1
    exact ⟨({ s.1 with motor1Level := setAt s.1.motor1Level pad m1,
                       motor2Level := setAt s.1.motor2Level pad m2 }, s.2),
      by simp only [step, GPSX.Motor, if_pos hp], h⟩
  | motorEnable pad e1 e2 =>
    exact ⟨s.1.MotorEnable s.2 pad e1 e2, rfl, motorEnable_idle s.1 s.2 pad e1 e2 h⟩
  | mode pad m l =>
    exact ⟨s.1.Mode s.2 pad m l, rfl, mode_idle s.1 s.2 pad m l h⟩

theorem run_idle (calls : List Call) (s : GPSX × Wire)
    (hv : ∀ c ∈ calls, c.valid = true) (h : idleLines s) :
    ∃ s', run s calls = some s' ∧ idleLines s' := by
  induction calls generalizing s with
  | nil => exact ⟨s, rfl, h⟩
  | cons c cs ih =>
    obtain ⟨s1, h1, i1⟩ := step_idle s c (hv c (List.mem_cons_self _ _)) h
    obtain ⟨s2, h2, i2⟩ := ih s1 (fun x hx => hv x (List.mem_cons_of_mem _ hx)) i1
    exact ⟨s2, by simp [run, h1, h2], i2⟩

/-- C23: the idle-line invariant.  After `New`, and after any sequence of valid `UpdateState`,
`Motor`, `MotorEnable` and `Mode` calls that follows it, the level last driven on the clock line
is high, the level last driven on attention line 1 is high and, when attention line 2 is
configured, so is the level last driven on it: no pad is left selected. -/
theorem C23_idle_lines (psxType : Nat) (pins : PinConfig) (w0 : Wire) (calls : List Call)
    (hvalid : ∀ c ∈ calls, c.valid = true) :
    (lastLevel Line.CLK (New psxType pins w0).2.trace = some true ∧
        lastLevel Line.AT1 (New psxType pins w0).2.trace = some true ∧
        (pins.AT2 ≠ 0 → lastLevel Line.AT2 (New psxType pins w0).2.trace = some true)) ∧
      ∃ s, run (New psxType pins w0) calls = some s ∧
        lastLevel Line.CLK s.2.trace = some true ∧
        lastLevel Line.AT1 s.2.trace = some true ∧
        (pins.AT2 ≠ 0 → lastLevel Line.AT2 s.2.trace = some true) := by
  have h0 := new_idle psxType pins w0
  obtain ⟨s, hrun, hi⟩ := run_idle calls _ hvalid h0
  obtain ⟨_, _, _, hpins, _⟩ := run_frame calls (New psxType pins w0) 0 hvalid
  have hp := new_pins psxType pins w0
  obtain ⟨s', hrun', _, hpins', _⟩ := run_frame calls (New psxType pins w0) 0 hvalid
  rw [hrun] at hrun'
  cases hrun'
  unfold idleLines at h0 hi
  rw [hp] at h0
  rw [hpins', hp] at hi
  exact ⟨h0, s, hrun, hi⟩

/-- C23 at a concrete input: the start-up of examples/basic followed by polls of both pads. -/
theorem C23_idle_lines_witness :
    ∃ s, run (New PS2 examplePins (freshWire (highExcept [])))
        [Call.mode Pad1 ModeAnalog ModeLock, Call.motorEnable Pad1 Motor1Enable Motor2Enable,
         Call.updateState Pad1, Call.motor Pad1 Motor1On 0x00, Call.updateState Pad2]
        = some s ∧
      lastLevel Line.CLK s.2.trace = some true ∧
      lastLevel Line.AT1 s.2.trace = some true ∧
      lastLevel Line.AT2 s.2.trace = some true := by
  obtain ⟨_, s, hrun, h1, h2, h3⟩ :=
    C23_idle_lines PS2 examplePins (freshWire (highExcept []))
      [Call.mode Pad1 ModeAnalog ModeLock, Call.motorEnable Pad1 Motor1Enable Motor2Enable,
       Call.updateState Pad1, Call.motor Pad1 Motor1On 0x00, Call.updateState Pad2] (by decide)
  exact ⟨s, hrun, h1, h2, h3 (by decide)⟩

/-! ## Loopback -/

theorem cmdBits_append_quiet (lvl : Bool) (a tail : List Event)
    (h : ∀ l, cmdBits l tail = []) : cmdBits lvl (a ++ tail) = cmdBits lvl a := by
  induction a generalizing lvl with
  | nil => simp [h, cmdBits]
  | cons e es ih =>
    rw [List.cons_append, cmdBits, cmdBits]
    simp only [ih]

theorem datBits_append (a b : List Event) : datBits (a ++ b) = datBits a ++ datBits b := by
  induction a with
  | nil => rfl
  | cons e es ih =>
    cases e with
    | get l lvl => cases l <;> simp [datBits, ih]
    | configure l m => simp [datBits, ih]
    | high l => simp [datBits, ih]
    | low l => simp [datBits, ih]
    | sleep d => simp [datBits, ih]

theorem cmdBits_frameEvents (g : GPSX) (pad : Nat) (msg : List Nat) (d : Nat → Bool) :
    cmdBits false (frameEvents g pad msg d) = cmdBits false (frameBody g msg d) := by
  have htail : ∀ l, cmdBits l [Event.high (attLine g pad), Event.sleep g.commandInterval]
      = [] := by
    intro l
    rcases attLine_cases g pad with h | h <;> simp [h, cmdBits]
  have hhead : cmdBits false (Event.low (attLine g pad) ::
      (frameBody g msg d ++ [Event.high (attLine g pad), Event.sleep g.commandInterval]))
      = cmdBits false
        (frameBody g msg d ++ [Event.high (attLine g pad), Event.sleep g.commandInterval]) := by
    rw [cmdBits]
    rcases attLine_cases g pad with h | h <;> simp [h]
  rw [frameEvents, List.cons_append, hhead, cmdBits_append_quiet _ _ _ htail]

theorem datBits_frameEvents (g : GPSX) (pad : Nat) (msg : List Nat) (d : Nat → Bool) :
    datBits (frameEvents g pad msg d) = datBits (frameBody g msg d) := by
  rw [frameEvents, List.cons_append, datBits, datBits_append]
  · simp [datBits]
  · intro lvl h
    cases h

theorem recvBytes_getD (d : Nat → Bool) (i : Nat) (hi : i < 9) :
    (recvBytes d 9 0).getD i 0 = response d i := by
  simp only [recvBytes]
  interval_cases i <;> rfl

theorem sentBytes_getD (msg : List Nat) (i : Nat) (hi : i < 9) :
    (sentBytes msg 9 0).getD i 0 = cmdAt msg i % 256 := by
  simp only [sentBytes]
  interval_cases i <;> rfl

/-- C24: loopback round trip.  If each of the 8 samples of `readWriteByte(b)` shows the level the
command line was driven to in the same iteration (the sampled bits equal the command-line bits at
the clock edges), the byte returned is `b`, for every byte `b`; and a `sendCommand(pad, msg)`
whose 72 samples are looped back in this way stores the command itself, zero-padded to 9 bytes,
in `padState[0..8]`. -/
theorem C24_loopback_round_trip (g : GPSX) (w : Wire) (pad b : Nat) (msg : List Nat)
    (hb : b < 256) (hbytes : ∀ x ∈ msg, x < 256) :
    (datBits (newEvents w (g.readWriteByte w b).2)
          = cmdBits false (newEvents w (g.readWriteByte w b).2) →
        (g.readWriteByte w b).1 = b) ∧
      (datBits (newEvents w (g.sendCommand w pad msg).2)
          = cmdBits false (newEvents w (g.sendCommand w pad msg).2) →
        ∀ i, i < 9 → (g.sendCommand w pad msg).1.padState i
          = if i < msg.length then msg.getD i 0 else 0x00) := by
  constructor
  · intro hloop
    have hd := datBits_bitEvents g.clkHalfCycle 8 b w.dat []
    have hc := cmdBits_bitEvents false g.clkHalfCycle 8 b w.dat []
    rw [List.append_nil] at hd hc
    rw [readWriteByte_newEvents, hd, hc] at hloop
    simp only [datBits, cmdBits, List.append_nil] at hloop
    rw [readWriteByte_fst, hloop, byteOfBits_natBits]
    exact Nat.mod_eq_of_lt hb
  · intro hloop i hi
    rw [sendCommand_newEvents, datBits_frameEvents, cmdBits_frameEvents] at hloop
    have hbytesEq : recvBytes w.dat 9 0 = sentBytes msg 9 0 := by
      rw [← bytesOf_datBits_frameBody g msg w.dat, ← bytesOf_cmdBits_frameBody g msg w.dat,
        hloop]
    have hi' := congrArg (fun l => l.getD i 0) hbytesEq
    simp only [recvBytes_getD w.dat i hi, sentBytes_getD msg i hi] at hi'
    rw [sendCommand_padState, if_pos hi, hi', cmdAt_mod msg i hbytes]
    by_cases hl : i < msg.length
    · rw [if_pos hl]
    · rw [if_neg hl, List.getD_eq_default _ _ (by omega)]

set_option maxRecDepth 100000 in
/-- C24 at concrete inputs: the byte `0xA5` and the poll command `01 42 00 FF 80`, each on a data
line wired back to the command line. -/
theorem C24_loopback_round_trip_witness :
    (idleSession.readWriteByte (freshWire (loopback [0xA5])) 0xA5).1 = 0xA5 ∧
      (idleSession.sendCommand (freshWire (loopback [0x01, 0x42, 0x00, 0xFF, 0x80])) Pad1
          [0x01, 0x42, 0x00, 0xFF, 0x80]).1.padState 3 = 0xFF ∧
      (idleSession.sendCommand (freshWire (loopback [0x01, 0x42, 0x00, 0xFF, 0x80])) Pad1
          [0x01, 0x42, 0x00, 0xFF, 0x80]).1.padState 7 = 0x00 := by
  have h1 := C24_loopback_round_trip idleSession (freshWire (loopback [0xA5])) Pad1 0xA5 []
    (by decide) (by decide)
  have h2 := C24_loopback_round_trip idleSession
    (freshWire (loopback [0x01, 0x42, 0x00, 0xFF, 0x80])) Pad1 0x00
    [0x01, 0x42, 0x00, 0xFF, 0x80] (by decide) (by decide)
  have l1 : datBits (newEvents (freshWire (loopback [0xA5]))
        (idleSession.readWriteByte (freshWire (loopback [0xA5])) 0xA5).2)
      = cmdBits false (newEvents (freshWire (loopback [0xA5]))
        (idleSession.readWriteByte (freshWire (loopback [0xA5])) 0xA5).2) := by
    decide
  have l2 : datBits (newEvents (freshWire (loopback [0x01, 0x42, 0x00, 0xFF, 0x80]))
        (idleSession.sendCommand (freshWire (loopback [0x01, 0x42, 0x00, 0xFF, 0x80])) Pad1
          [0x01, 0x42, 0x00, 0xFF, 0x80]).2)
      = cmdBits false (newEvents (freshWire (loopback [0x01, 0x42, 0x00, 0xFF, 0x80]))
        (idleSession.sendCommand (freshWire (loopback [0x01, 0x42, 0x00, 0xFF, 0x80])) Pad1
          [0x01, 0x42, 0x00, 0xFF, 0x80]).2) := by
    decide
  refine ⟨h1.1 l1, ?_, ?_⟩
  · rw [h2.2 l2 3 (by decide)]
    rfl
  · rw [h2.2 l2 7 (by decide)]
    rfl

/-! ## The handle position of examples/dengo_ts_emu -/

theorem getNotchState_range (n : Nat) :
    DengoTsEmu.getNotchState n ≤ 5 ∨ DengoTsEmu.getNotchState n = 0xff := by
  unfold DengoTsEmu.getNotchState
  split_ifs <;> simp

theorem getBrakeState_range (b : Nat) :
    DengoTsEmu.getBrakeState b ≤ 9 ∨ DengoTsEmu.getBrakeState b = 0xff := by
  unfold DengoTsEmu.getBrakeState
  split_ifs <;> simp

theorem tsCmdHandle_lookup (h : Nat) (hh : h ≤ 14) :
    ∃ cmd, DengoTsEmu.tsCmdHandle[h]? = some cmd := by
  have hl : h < DengoTsEmu.tsCmdHandle.length := by
    have : DengoTsEmu.tsCmdHandle.length = 15 := rfl
    omega
  exact ⟨DengoTsEmu.tsCmdHandle[h], List.getElem?_eq_getElem hl⟩

/-- C25: `getMasconState` always returns; the notch and brake it reports are `getNotchState`
and `getBrakeState` of two 4-bit contact patterns; the handle is `0xff` exactly when one of
them is `0xff`, and otherwise lies in `0..14`: with the brake in `1..9` it is `9 - brake`
(in `0..8`, the `uint8` subtraction does not wrap), with the brake `0` it is `notch + 9`
(in `9..14`); so the lookup `tsCmdHandle[handle]` that `main` guards by `handle != 0xff`
is inside the 15-entry table. -/
theorem C25_mascon_handle_in_table (psx : GPSX) (w : Wire) :
    ∃ st psx' w', DengoTsEmu.getMasconState psx w = some (st, psx', w') ∧
      (∃ np bp, np < 16 ∧ bp < 16 ∧ st.notch = DengoTsEmu.getNotchState np ∧
        st.brake = DengoTsEmu.getBrakeState bp) ∧
      (st.handle = 0xff ↔ (st.notch = 0xff ∨ st.brake = 0xff)) ∧
      (st.handle ≠ 0xff → st.handle ≤ 14) ∧
      (st.handle ≠ 0xff → 1 ≤ st.brake →
        st.brake ≤ 9 ∧ st.handle + st.brake = 9 ∧ st.handle ≤ 8) ∧
      (st.handle ≠ 0xff → st.brake = 0 →
        st.notch ≤ 5 ∧ st.handle = st.notch + 9 ∧ 9 ≤ st.handle) ∧
      (st.handle ≠ 0xff → ∃ cmd, DengoTsEmu.tsCmdHandle[st.handle]? = some cmd) := by
  have hu : ∃ r, psx.UpdateState w Pad1 = some r := by simp [GPSX.UpdateState]
  obtain ⟨r, hu⟩ := hu
  unfold DengoTsEmu.getMasconState
  simp -zeta only [hu]
  lift_lets
  extract_lets cs0 p1 w1 n0 n1 n2 n3 n4 b1 b2 b3 b4 cs3 cs4 cs5 cs6 cs7 cs8
  refine ⟨cs8, p1, w1, rfl, ?_⟩
  have h8 : cs8.handle = cs7.handle ∧ cs8.notch = cs7.notch ∧ cs8.brake = cs7.brake := by
    simp only [cs8]
    split <;> exact ⟨rfl, rfl, rfl⟩
  have h7 : cs7.handle = cs6.handle ∧ cs7.notch = cs6.notch ∧ cs7.brake = cs6.brake := by
    simp only [cs7]
    split <;> exact ⟨rfl, rfl, rfl⟩
  have h6 : cs6.handle = cs5.handle ∧ cs6.notch = cs5.notch ∧ cs6.brake = cs5.brake := by
    simp only [cs6]
    split <;> exact ⟨rfl, rfl, rfl⟩
  have h5 : cs5.handle = cs4.handle ∧ cs5.notch = cs4.notch ∧ cs5.brake = cs4.brake := by
    simp only [cs5]
    split <;> exact ⟨rfl, rfl, rfl⟩
  have h4 : cs4.handle = cs3.handle ∧ cs4.notch = cs3.notch ∧ cs4.brake = cs3.brake := by
    simp only [cs4]
    split <;> exact ⟨rfl, rfl, rfl⟩
  have h3 : cs3.notch = DengoTsEmu.getNotchState n4 ∧ cs3.brake = DengoTsEmu.getBrakeState b4 ∧
      cs3.handle = (if DengoTsEmu.getBrakeState b4 ≠ 255 ∧ DengoTsEmu.getNotchState n4 ≠ 255 then
        if DengoTsEmu.getBrakeState b4 ≠ 0 then (9 + 256 - DengoTsEmu.getBrakeState b4) % 256
        else (DengoTsEmu.getNotchState n4 + 9) % 256
        else 255) := by
    simp only [cs3]
    split_ifs <;> exact ⟨rfl, rfl, rfl⟩
  have hn : n4 < 16 := by
    simp only [n4, n3, n2, n1, n0]
    split_ifs <;> decide
  have hb : b4 < 16 := by
    simp only [b4, b3, b2, b1, n0]
    split_ifs <;> decide
  have hN : cs8.notch = DengoTsEmu.getNotchState n4 := by
    rw [h8.2.1, h7.2.1, h6.2.1, h5.2.1, h4.2.1, h3.1]
  have hB : cs8.brake = DengoTsEmu.getBrakeState b4 := by
    rw [h8.2.2, h7.2.2, h6.2.2, h5.2.2, h4.2.2, h3.2.1]
  have hH : cs8.handle = (if cs8.brake ≠ 255 ∧ cs8.notch ≠ 255 then
        if cs8.brake ≠ 0 then (9 + 256 - cs8.brake) % 256
        else (cs8.notch + 9) % 256
        else 255) := by
    rw [hN, hB, h8.1, h7.1, h6.1, h5.1, h4.1, h3.2.2]
  have hnr : cs8.notch ≤ 5 ∨ cs8.notch = 0xff := hN ▸ getNotchState_range n4
  have hbr : cs8.brake ≤ 9 ∨ cs8.brake = 0xff := hB ▸ getBrakeState_range b4
  clear_value cs8
  generalize cs8.handle = h at *
  generalize cs8.notch = n at *
  generalize cs8.brake = b at *
  have hrange : h = 0xff ∨ h ≤ 14 := by
    subst hH
    split_ifs <;> omega
  refine ⟨⟨n4, b4, hn, hb, hN, hB⟩, ?_, ?_, ?_, ?_, ?_⟩
  · subst hH
    split_ifs <;> omega
  · omega
  · subst hH
    split_ifs <;> omega
  · subst hH
    split_ifs <;> omega
  · intro hne
    exact tsCmdHandle_lookup h (by omega)

end Gpsx
